import Mathlib

/-!
# Event key-value builders and the record marshaller of `pkg/axevent/events.go`

A shallow embedding of `NewTns1AxisEvent`, `NewTnsAxisEvent`, `UnmarshalEvent` and
`NewCameraApplicationPlatformEvent`.  The key-value set itself (`AXEventKeyValueSet` and its
methods) is not part of the translated file: the builders are written against an interface
`KvsOps`, and `specKvs` is the key-value set of section 4.1 of the specification.

Conventions.  A Go pointer that may be nil is an `Option`.  A slice of pointers is a `List` of the
pointed-to records; a nil element (on which the Go code would dereference nil) is outside the
model, and a nil slice is the empty list.  An error return is a `GoError`.
-/

set_option autoImplicit false

namespace Axevent

/-! ## Values and records of the package -/

/-- Go `float64` values, identified by their IEEE 754 bit pattern; the code only moves them. -/
structure Float64 where
  bits : Nat
deriving DecidableEq, Repr

/-- Modelled from the spec: the type tags `AXEventValueType` (its declaration is not in the
translated file); section 3 gives the four tags Integer, Double, String, Boolean. -/
inductive AXEventValueType where
  | AXValueTypeInt
  | AXValueTypeBool
  | AXValueTypeDouble
  | AXValueTypeString
deriving DecidableEq, Repr

/-- What a Go `interface{}` handed to `AddKeyValue` may hold: one of the four payload kinds, or
anything else (nil included). -/
inductive Value where
  | int (i : Int)
  | double (x : Float64)
  | string (s : String)
  | bool (b : Bool)
  | other (descr : String)
deriving DecidableEq, Repr

/-- `KeyValueEntrie` is a key-value pair for an `AXEventKeyValueSet`. -/
structure KeyValueEntrie where
  Key : String
  Namespace : Option String
  Value : Axevent.Value
  ValueType : AXEventValueType
deriving DecidableEq, Repr

/-- `AxEventKeyValueSetSourceMark`: mark a key as a source. -/
structure AxEventKeyValueSetSourceMark where
  Key : String
  Namespace : Option String
deriving DecidableEq, Repr

/-- `AxEventKeyValueSetDataMark`: mark a key as data. -/
structure AxEventKeyValueSetDataMark where
  Key : String
  Namespace : Option String
deriving DecidableEq, Repr

/-- `AxEventKeyValueSetUserDefineMark`: mark a key with a user defined tag. -/
structure AxEventKeyValueSetUserDefineMark where
  Key : String
  Namespace : Option String
  Tag : Option String
deriving DecidableEq, Repr

/-- `AxEventKeyValueSetNiceNames`: the nice names of a key/value pair. -/
structure AxEventKeyValueSetNiceNames where
  Key : String
  Namespace : Option String
  KeyNiceName : Option String
  ValueNiceName : Option String
deriving DecidableEq, Repr

/-- Modelled from the spec: the constant `OnfivNameSpaceTns1` (declared outside the translated
file); section 3 names the ONVIF namespace "tns1". -/
def OnfivNameSpaceTns1 : String := "tns1"

/-- Modelled from the spec: the constant `OnfivNameSpaceTnsAxis` (declared outside the translated
file); section 3 names the vendor namespace "tnsAxis". -/
def OnfivNameSpaceTnsAxis : String := "tnsAxis"

/-- Modelled from the spec: `axmanifest.Setup` (declared in another package); only the two fields
that `NewCameraApplicationPlatformEvent` reads. -/
structure Setup where
  AppName : String
  FriendlyName : String
deriving DecidableEq, Repr

/-! ## Go errors -/

/-- The error values the translated functions return.  `lib err` is an error of the key-value set
returned as it is; `wrapError msg err` is the result of `fmt.Errorf` with a `%w` verb (message
`msg`, `Unwrap` gives `err`); `errorString msg` is the result of `fmt.Errorf` without `%w`
(a message only, nothing to unwrap). -/
inductive GoError (ε : Type) where
  | lib (err : ε)
  | wrapError (msg : String) (err : ε)
  | errorString (msg : String)
deriving DecidableEq, Repr

/-- `Unwrap`: the wrapped error, if there is one. -/
def GoError.Unwrap {ε : Type} : GoError ε → Option ε
  | .lib _ => none
  | .wrapError _ err => some err
  | .errorString _ => none

/-- `Error()`: the message of an error, given the message of the errors of the key-value set. -/
def GoError.Error {ε : Type} (text : ε → String) : GoError ε → String
  | .lib err => text err
  | .wrapError msg _ => msg
  | .errorString msg => msg

/-! ## The interface of the key-value set -/

/-- Modelled from the spec: the methods of `AXEventKeyValueSet` that the translated functions
call; their bodies are not in the translated file, so they are parameters.  `σ` is the state of a
set, `ε` the type of its errors.  A mutating method returns the new state or an error; a getter
returns the value or an error.  `Error` is the `Error()` method of the errors. -/
structure KvsOps (σ ε : Type) where
  NewAXEventKeyValueSet : σ
  AddKeyValue : σ → String → Option String → Value → AXEventValueType → Except ε σ
  MarkAsSource : σ → String → Option String → Except ε σ
  MarkAsData : σ → String → Option String → Except ε σ
  MarkAsUserDefined : σ → String → Option String → Option String → Except ε σ
  AddNiceNames : σ → String → Option String → Option String → Option String → Except ε σ
  GetInteger : σ → String → Option String → Except ε Int
  GetDouble : σ → String → Option String → Except ε Float64
  GetString : σ → String → Option String → Except ε String
  GetBoolean : σ → String → Option String → Except ε Bool
  Error : ε → String

/-- The statement `fmt.Errorf("failed to add key-value for <field>: %w", err)`. -/
def addKeyValueError {σ ε : Type} (ops : KvsOps σ ε) (field : String) (err : ε) : GoError ε :=
  .wrapError ("failed to add key-value for " ++ field ++ ": " ++ ops.Error err) err

/-! ## The topic event builders -/

/-- The loop `for _, kv := range keyvalues` shared by both topic builders: insert each entry,
return at the first error wrapped with the key of the entry. -/
def addKeyValues {σ ε : Type} (ops : KvsOps σ ε) : σ → List KeyValueEntrie → Except (GoError ε) σ
  | kvs, [] => .ok kvs
  | kvs, kv :: rest =>
    match ops.AddKeyValue kvs kv.Key kv.Namespace kv.Value kv.ValueType with
    | .error err => .error (addKeyValueError ops kv.Key err)
    | .ok kvs => addKeyValues ops kvs rest

/-- `NewTns1AxisEvent` creates a new key-value set with the given topics and key-value pairs;
topic0 is rooted in the ONVIF namespace.  An error result stands for the Go return `nil, err`. -/
def NewTns1AxisEvent {σ ε : Type} (ops : KvsOps σ ε) (topic0 topic1 : String)
    (topic2 topic3 : Option String) (keyvalues : List KeyValueEntrie) : Except (GoError ε) σ :=
  let kvs := ops.NewAXEventKeyValueSet
  match ops.AddKeyValue kvs "topic0" (some OnfivNameSpaceTns1) (.string topic0)
      .AXValueTypeString with
  | .error err => .error (addKeyValueError ops "topic0" err)
  | .ok kvs =>
  match ops.AddKeyValue kvs "topic1" (some OnfivNameSpaceTnsAxis) (.string topic1)
      .AXValueTypeString with
  | .error err => .error (addKeyValueError ops "topic1" err)
  | .ok kvs =>
  match (match topic2 with
    | none => Except.ok kvs
    | some t2 =>
      match ops.AddKeyValue kvs "topic2" (some OnfivNameSpaceTnsAxis) (.string t2)
          .AXValueTypeString with
      | .error err => .error (addKeyValueError ops "topic2" err)
      | .ok kvs => .ok kvs) with
  | .error e => .error e
  | .ok kvs =>
  match (match topic3 with
    | none => Except.ok kvs
    | some t3 =>
      match ops.AddKeyValue kvs "topic3" (some OnfivNameSpaceTnsAxis) (.string t3)
          .AXValueTypeString with
      | .error err => .error (addKeyValueError ops "topic2" err)
      | .ok kvs => .ok kvs) with
  | .error e => .error e
  | .ok kvs => addKeyValues ops kvs keyvalues

/-- `NewTnsAxisEvent` creates a new key-value set with the given topics and key-value pairs;
topic0 is rooted in the vendor namespace.  An error result stands for the Go return `nil, err`. -/
def NewTnsAxisEvent {σ ε : Type} (ops : KvsOps σ ε) (topic0 topic1 : String)
    (topic2 topic3 : Option String) (keyvalues : List KeyValueEntrie) : Except (GoError ε) σ :=
  let kvs := ops.NewAXEventKeyValueSet
  match ops.AddKeyValue kvs "topic0" (some OnfivNameSpaceTnsAxis) (.string topic0)
      .AXValueTypeString with
  | .error err => .error (addKeyValueError ops "topic0" err)
  | .ok kvs =>
  match ops.AddKeyValue kvs "topic1" (some OnfivNameSpaceTnsAxis) (.string topic1)
      .AXValueTypeString with
  | .error err => .error (addKeyValueError ops "topic1" err)
  | .ok kvs =>
  match (match topic2 with
    | none => Except.ok kvs
    | some t2 =>
      match ops.AddKeyValue kvs "topic2" (some OnfivNameSpaceTnsAxis) (.string t2)
          .AXValueTypeString with
      | .error err => .error (addKeyValueError ops "topic2" err)
      | .ok kvs => .ok kvs) with
  | .error e => .error e
  | .ok kvs =>
  match (match topic3 with
    | none => Except.ok kvs
    | some t3 =>
      match ops.AddKeyValue kvs "topic3" (some OnfivNameSpaceTnsAxis) (.string t3)
          .AXValueTypeString with
      | .error err => .error (addKeyValueError ops "topic3" err)
      | .ok kvs => .ok kvs) with
  | .error e => .error e
  | .ok kvs => addKeyValues ops kvs keyvalues

/-! ## The platform event builder -/

/-- The loop `for _, source_marker := range source_markers`: an error of `MarkAsSource` is
returned as it is. -/
def markSources {σ ε : Type} (ops : KvsOps σ ε) :
    σ → List AxEventKeyValueSetSourceMark → Except (GoError ε) σ
  | kvs, [] => .ok kvs
  | kvs, source_marker :: rest =>
    match ops.MarkAsSource kvs source_marker.Key source_marker.Namespace with
    | .error err => .error (.lib err)
    | .ok kvs => markSources ops kvs rest

/-- The loop `for _, data_marker := range data_markers`. -/
def markDatas {σ ε : Type} (ops : KvsOps σ ε) :
    σ → List AxEventKeyValueSetDataMark → Except (GoError ε) σ
  | kvs, [] => .ok kvs
  | kvs, data_marker :: rest =>
    match ops.MarkAsData kvs data_marker.Key data_marker.Namespace with
    | .error err => .error (.lib err)
    | .ok kvs => markDatas ops kvs rest

/-- The loop `for _, user_defined_marker := range user_defined_markers`. -/
def markUserDefineds {σ ε : Type} (ops : KvsOps σ ε) :
    σ → List AxEventKeyValueSetUserDefineMark → Except (GoError ε) σ
  | kvs, [] => .ok kvs
  | kvs, user_defined_marker :: rest =>
    match ops.MarkAsUserDefined kvs user_defined_marker.Key user_defined_marker.Namespace
        user_defined_marker.Tag with
    | .error err => .error (.lib err)
    | .ok kvs => markUserDefineds ops kvs rest

/-- The loop `for _, nice_name := range nice_names`. -/
def addNiceNames {σ ε : Type} (ops : KvsOps σ ε) :
    σ → List AxEventKeyValueSetNiceNames → Except (GoError ε) σ
  | kvs, [] => .ok kvs
  | kvs, nice_name :: rest =>
    match ops.AddNiceNames kvs nice_name.Key nice_name.Namespace nice_name.KeyNiceName
        nice_name.ValueNiceName with
    | .error err => .error (.lib err)
    | .ok kvs => addNiceNames ops kvs rest

/-- The value of the local `nice_name`: `fmt.Sprintf("%s: %s", FriendlyName, ...)` with the
explicit event nice name when it is given and the event name otherwise. -/
def topicNiceName (app_setup : Setup) (event_name : String) (event_nice_name : Option String) :
    String :=
  match event_nice_name with
  | some n => app_setup.FriendlyName ++ ": " ++ n
  | none => app_setup.FriendlyName ++ ": " ++ event_name

/-- `NewCameraApplicationPlatformEvent`: a `NewTnsAxisEvent` under
"CameraApplicationPlatform"/app name/event name, then the source, data and user defined markers,
then the nice names followed by the synthesized nice name of topic2. -/
def NewCameraApplicationPlatformEvent {σ ε : Type} (ops : KvsOps σ ε) (app_setup : Setup)
    (event_name : String) (event_nice_name : Option String) (kvs_entries : List KeyValueEntrie)
    (source_markers : List AxEventKeyValueSetSourceMark)
    (data_markers : List AxEventKeyValueSetDataMark)
    (user_defined_markers : List AxEventKeyValueSetUserDefineMark)
    (nice_names : List AxEventKeyValueSetNiceNames) : Except (GoError ε) σ :=
  match NewTnsAxisEvent ops "CameraApplicationPlatform" app_setup.AppName (some event_name) none
      kvs_entries with
  | .error err => .error err
  | .ok kvs =>
  match markSources ops kvs source_markers with
  | .error err => .error err
  | .ok kvs =>
  match markDatas ops kvs data_markers with
  | .error err => .error err
  | .ok kvs =>
  match markUserDefineds ops kvs user_defined_markers with
  | .error err => .error err
  | .ok kvs =>
  let nice_name := topicNiceName app_setup event_name event_nice_name
  let topic_nice_name : AxEventKeyValueSetNiceNames :=
    { Key := "topic2", Namespace := some OnfivNameSpaceTnsAxis, KeyNiceName := none,
      ValueNiceName := some nice_name }
  let nice_names := nice_names ++ [topic_nice_name]
  addNiceNames ops kvs nice_names

/-! ## The record marshaller -/

/-- The kinds of `reflect.Kind`. -/
inductive Kind where
  | Invalid | Bool | Int | Int8 | Int16 | Int32 | Int64
  | Uint | Uint8 | Uint16 | Uint32 | Uint64 | Uintptr
  | Float32 | Float64 | Complex64 | Complex128
  | Array | Chan | Func | Interface | Map | Ptr | Slice | String | Struct | UnsafePointer
deriving DecidableEq, Repr

/-- One field of the target struct as reflection shows it: its name, the value of its `eventKey`
tag ("" when it has none), whether `CanSet` holds, its kind, and its current value. -/
structure StructField where
  Name : String
  eventKey : String
  CanSet : Bool
  Kind : Axevent.Kind
  value : Value
deriving DecidableEq, Repr

/-- What the second argument `v interface{}` of `UnmarshalEvent` may hold: a value that is not
a pointer, of kind `k` (`Invalid` for a nil interface); a nil pointer; a pointer to a value of a
kind `k` other than `Struct`; a pointer to a struct with the given fields. -/
inductive Target where
  | notPointer (k : Kind)
  | nilPointer
  | pointerTo (k : Kind)
  | pointerToStruct (fields : List StructField)
deriving DecidableEq, Repr

/-- `reflect.ValueOf(v).Kind()`. -/
def Target.Kind : Target → Axevent.Kind
  | .notPointer k => k
  | .nilPointer => .Ptr
  | .pointerTo _ => .Ptr
  | .pointerToStruct _ => .Ptr

/-- `reflect.ValueOf(v).Elem().Kind()`, evaluated only when the kind of `v` is `Ptr`; the `Elem`
of a nil pointer is the zero `reflect.Value`, of kind `Invalid`. -/
def Target.ElemKind : Target → Axevent.Kind
  | .notPointer _ => .Invalid
  | .nilPointer => .Invalid
  | .pointerTo k => k
  | .pointerToStruct _ => .Struct

/-- The fields of `val.Elem()`. -/
def Target.fields : Target → List StructField
  | .pointerToStruct fields => fields
  | _ => []

/-- The target with the fields of the pointed-to struct replaced. -/
def Target.withFields : Target → List StructField → Target
  | .pointerToStruct _, fields => .pointerToStruct fields
  | v, _ => v

/-- The four getters of the key-value set. -/
inductive Getter where
  | GetInteger | GetDouble | GetString | GetBoolean
deriving DecidableEq, Repr

/-- One call of a getter on the key-value set of the event. -/
structure Lookup where
  getter : Getter
  key : String
  ns : Option String
deriving DecidableEq, Repr

/-- The `Event` handed to `UnmarshalEvent`; only its `Kvs` is read. -/
structure Event (σ : Type) where
  Kvs : σ

/-- The outcome of a run of the marshaller: the target after the call, the returned error, and
the getter calls made on the key-value set, in call order. -/
structure Unmarshalled (τ ε : Type) where
  target : τ
  err : Option (GoError ε)
  lookups : List Lookup

/-- Go on with the remaining fields after field `f` was handled with the getter calls `ls`. -/
def Unmarshalled.after {ε : Type} (f : StructField) (ls : List Lookup)
    (r : Unmarshalled (List StructField) ε) : Unmarshalled (List StructField) ε :=
  { target := f :: r.target, err := r.err, lookups := ls ++ r.lookups }

/-- What `strings.ToLower` returns on a string of ASCII characters: the letters A to Z are mapped
to a to z.  It is used only to evaluate the scenarios, whose field names are ASCII; on other
strings it is not the Go function. -/
def asciiToLower (s : String) : String := String.mk (s.data.map Char.toLower)

/-!
### The function `strings.ToLower`

`UnmarshalEvent` calls `strings.ToLower` of the Go standard library, which is not part of the
translated file.  It is the parameter `ToLower` of the definitions below: nothing is assumed
about it, so every statement about the marshaller holds for the Go function, whatever it does on
letters outside ASCII.
-/

variable (ToLower : String → String)

/-- The lookup key of a field: the `eventKey` tag, or the lower-cased name when the tag is
empty. -/
def lookupKey (fieldType : StructField) : String :=
  if fieldType.eventKey = "" then ToLower fieldType.Name else fieldType.eventKey

/-- The statement `fmt.Errorf("error getting <what> for key %s: %v", key, err)`. -/
def getError {σ ε : Type} (ops : KvsOps σ ε) (what key : String) (err : ε) : GoError ε :=
  .errorString ("error getting " ++ what ++ " for key " ++ key ++ ": " ++ ops.Error err)

/-- The loop `for i := 0; i < val.Elem().NumField(); i++` of `UnmarshalEvent`, on the fields
from index `i` on. -/
def unmarshalFields {σ ε : Type} (ops : KvsOps σ ε) (e : Event σ) :
    List StructField → Unmarshalled (List StructField) ε
  | [] => { target := [], err := none, lookups := [] }
  | field :: rest =>
    if !field.CanSet then
      (unmarshalFields ops e rest).after field []
    else
      let key := lookupKey ToLower field
      match field.Kind with
      | .Int =>
        match ops.GetInteger e.Kvs key none with
        | .ok intValue =>
          (unmarshalFields ops e rest).after { field with value := .int intValue }
            [⟨.GetInteger, key, none⟩]
        | .error err =>
          { target := field :: rest, err := some (getError ops "integer" key err),
            lookups := [⟨.GetInteger, key, none⟩] }
      | .Float64 =>
        match ops.GetDouble e.Kvs key none with
        | .ok fValue =>
          (unmarshalFields ops e rest).after { field with value := .double fValue }
            [⟨.GetDouble, key, none⟩]
        | .error err =>
          { target := field :: rest, err := some (getError ops "double" key err),
            lookups := [⟨.GetDouble, key, none⟩] }
      | .String =>
        match ops.GetString e.Kvs key none with
        | .ok sValue =>
          (unmarshalFields ops e rest).after { field with value := .string sValue }
            [⟨.GetString, key, none⟩]
        | .error err =>
          { target := field :: rest, err := some (getError ops "string" key err),
            lookups := [⟨.GetString, key, none⟩] }
      | .Bool =>
        match ops.GetBoolean e.Kvs key none with
        | .ok boolValue =>
          (unmarshalFields ops e rest).after { field with value := .bool boolValue }
            [⟨.GetBoolean, key, none⟩]
        | .error err =>
          { target := field :: rest, err := some (getError ops "boolean" key err),
            lookups := [⟨.GetBoolean, key, none⟩] }
      | _ => (unmarshalFields ops e rest).after field []

/-- `UnmarshalEvent` unmarshals the given event into the provided struct. -/
def UnmarshalEvent {σ ε : Type} (ops : KvsOps σ ε) (e : Event σ) (v : Target) :
    Unmarshalled Target ε :=
  if v.Kind ≠ .Ptr || v.ElemKind ≠ .Struct then
    { target := v, err := some (.errorString "value must be a pointer to a struct"),
      lookups := [] }
  else
    let r := unmarshalFields ToLower ops e v.fields
    { target := v.withFields r.target, err := r.err, lookups := r.lookups }

/-! ## Recording the calls made on the key-value set -/

/-- A call of a mutating method of the key-value set, with its arguments. -/
inductive Call where
  | AddKeyValue (key : String) (ns : Option String) (value : Value) (vt : AXEventValueType)
  | MarkAsSource (key : String) (ns : Option String)
  | MarkAsData (key : String) (ns : Option String)
  | MarkAsUserDefined (key : String) (ns : Option String) (tag : Option String)
  | AddNiceNames (key : String) (ns : Option String) (keyNiceName valueNiceName : Option String)
deriving DecidableEq, Repr

/-- Append call `c` to the log `log`, on the success side and on the error side alike. -/
def logCall {σ ε : Type} (log : List Call) (c : Call) :
    Except ε σ → Except (ε × List Call) (σ × List Call)
  | .ok s => .ok (s, log ++ [c])
  | .error err => .error (err, log ++ [c])

/-- The key-value set `ops` with a log: every call of a mutating method is appended to the log
before its outcome is handed back, so that the state of a set, and every error it returns, carries
the calls made on the set so far, the failing one included. -/
def traced {σ ε : Type} (ops : KvsOps σ ε) : KvsOps (σ × List Call) (ε × List Call) where
  NewAXEventKeyValueSet := (ops.NewAXEventKeyValueSet, [])
  AddKeyValue := fun s key ns value vt =>
    logCall s.2 (.AddKeyValue key ns value vt) (ops.AddKeyValue s.1 key ns value vt)
  MarkAsSource := fun s key ns => logCall s.2 (.MarkAsSource key ns) (ops.MarkAsSource s.1 key ns)
  MarkAsData := fun s key ns => logCall s.2 (.MarkAsData key ns) (ops.MarkAsData s.1 key ns)
  MarkAsUserDefined := fun s key ns tag =>
    logCall s.2 (.MarkAsUserDefined key ns tag) (ops.MarkAsUserDefined s.1 key ns tag)
  AddNiceNames := fun s key ns kn vn =>
    logCall s.2 (.AddNiceNames key ns kn vn) (ops.AddNiceNames s.1 key ns kn vn)
  GetInteger := fun s key ns => (ops.GetInteger s.1 key ns).mapError (fun err => (err, s.2))
  GetDouble := fun s key ns => (ops.GetDouble s.1 key ns).mapError (fun err => (err, s.2))
  GetString := fun s key ns => (ops.GetString s.1 key ns).mapError (fun err => (err, s.2))
  GetBoolean := fun s key ns => (ops.GetBoolean s.1 key ns).mapError (fun err => (err, s.2))
  Error := fun err => ops.Error err.1

/-- The call that inserts the entry `kv`. -/
def KeyValueEntrie.call (kv : KeyValueEntrie) : Call :=
  .AddKeyValue kv.Key kv.Namespace kv.Value kv.ValueType

/-- The call that applies the nice names `n`. -/
def AxEventKeyValueSetNiceNames.call (n : AxEventKeyValueSetNiceNames) : Call :=
  .AddNiceNames n.Key n.Namespace n.KeyNiceName n.ValueNiceName

/-- The call that applies the source marker `m`. -/
def AxEventKeyValueSetSourceMark.call (m : AxEventKeyValueSetSourceMark) : Call :=
  .MarkAsSource m.Key m.Namespace

/-- The call that applies the data marker `m`. -/
def AxEventKeyValueSetDataMark.call (m : AxEventKeyValueSetDataMark) : Call :=
  .MarkAsData m.Key m.Namespace

/-- The call that applies the user defined marker `m`. -/
def AxEventKeyValueSetUserDefineMark.call (m : AxEventKeyValueSetUserDefineMark) : Call :=
  .MarkAsUserDefined m.Key m.Namespace m.Tag

/-- `AddKeyValue` applied to the four components of an entry. -/
def KvsOps.add {σ ε : Type} (ops : KvsOps σ ε) (s : σ) (kv : KeyValueEntrie) : Except ε σ :=
  ops.AddKeyValue s kv.Key kv.Namespace kv.Value kv.ValueType

/-! ## The insertions of a topic builder, as the specification lists them -/

/-- The entry of a topic slot: the topic string, typed String, under the given namespace. -/
def topicEntry (slot ns topic : String) : KeyValueEntrie :=
  { Key := slot, Namespace := some ns, Value := .string topic, ValueType := .AXValueTypeString }

/-- The insertions of a topic builder in the order of section 4.2: topic0 under `ns0`, topic1,
then topic2 and topic3 when present, under the vendor namespace, then the payload entries. -/
def insertions (ns0 topic0 topic1 : String) (topic2 topic3 : Option String)
    (keyvalues : List KeyValueEntrie) : List KeyValueEntrie :=
  [topicEntry "topic0" ns0 topic0, topicEntry "topic1" OnfivNameSpaceTnsAxis topic1]
    ++ (topic2.map (topicEntry "topic2" OnfivNameSpaceTnsAxis)).toList
    ++ (topic3.map (topicEntry "topic3" OnfivNameSpaceTnsAxis)).toList
    ++ keyvalues

/-- The entries `kvs`, inserted one after the other from state `s`, all succeed and end in
state `t`. -/
inductive Inserted {σ ε : Type} (ops : KvsOps σ ε) : σ → List KeyValueEntrie → σ → Prop where
  | nil (s : σ) : Inserted ops s [] s
  | cons {s s1 t : σ} {kv : KeyValueEntrie} {rest : List KeyValueEntrie} :
      ops.add s kv = .ok s1 → Inserted ops s1 rest t → Inserted ops s (kv :: rest) t

/-- Insert labelled entries one after the other; the first error is wrapped with the label of the
failing entry.  Both topic builders are instances of this scheme. -/
def insertLabelled {σ ε : Type} (ops : KvsOps σ ε) :
    σ → List (String × KeyValueEntrie) → Except (GoError ε) σ
  | s, [] => .ok s
  | s, (label, kv) :: rest =>
    match ops.add s kv with
    | .error err => .error (addKeyValueError ops label err)
    | .ok s => insertLabelled ops s rest

/-- The label a topic builder puts in its error message for an entry: `label3` for the topic3
slot, the key of the entry otherwise. -/
def labelled (label3 : String) (ns0 topic0 topic1 : String) (topic2 topic3 : Option String)
    (keyvalues : List KeyValueEntrie) : List (String × KeyValueEntrie) :=
  [("topic0", topicEntry "topic0" ns0 topic0),
   ("topic1", topicEntry "topic1" OnfivNameSpaceTnsAxis topic1)]
    ++ (topic2.map (fun t => ("topic2", topicEntry "topic2" OnfivNameSpaceTnsAxis t))).toList
    ++ (topic3.map (fun t => (label3, topicEntry "topic3" OnfivNameSpaceTnsAxis t))).toList
    ++ keyvalues.map (fun kv => (kv.Key, kv))

/-! ## The key-value set of section 4.1 -/

/-- Modelled from the spec: `TypedValue` of section 3, a tagged union over integer, double,
string and boolean. -/
inductive TypedValue where
  | Integer (i : Int)
  | Double (x : Float64)
  | String (s : String)
  | Boolean (b : Bool)
deriving DecidableEq, Repr

/-- The tag of a typed value. -/
def TypedValue.tag : TypedValue → AXEventValueType
  | .Integer _ => .AXValueTypeInt
  | .Double _ => .AXValueTypeDouble
  | .String _ => .AXValueTypeString
  | .Boolean _ => .AXValueTypeBool

/-- The payload of a typed value as a Go value. -/
def TypedValue.payload : TypedValue → Value
  | .Integer i => .int i
  | .Double x => .double x
  | .String s => .string s
  | .Boolean b => .bool b

/-- Modelled from the spec: value and type handed to `AddKeyValue` "must be consistent (e.g.,
type=String requires a string value)"; the typed value when they are. -/
def typed : Value → AXEventValueType → Option TypedValue
  | .int i, .AXValueTypeInt => some (.Integer i)
  | .double x, .AXValueTypeDouble => some (.Double x)
  | .string s, .AXValueTypeString => some (.String s)
  | .bool b, .AXValueTypeBool => some (.Boolean b)
  | _, _ => none

/-- Modelled from the spec: a binding of a `KeyEntry` (key, optional namespace) to a typed
value. -/
structure Binding where
  key : String
  ns : Option String
  value : TypedValue
deriving DecidableEq, Repr

/-- A stored binding seen as the (key, namespace, value, type) of a `KeyValueEntrie`. -/
def Binding.toKeyValueEntrie (b : Binding) : KeyValueEntrie :=
  { Key := b.key, Namespace := b.ns, Value := b.value.payload, ValueType := b.value.tag }

/-- Modelled from the spec: the error kinds of section 7 raised by the key-value set, with the
context (key, namespace, attempted kind) they retain. -/
inductive KvsError where
  | DuplicateKeyError (key : String) (ns : Option String)
  | KeyNotFoundError (key : String) (ns : Option String)
  | TypeMismatchError (key : String) (ns : Option String) (kind : AXEventValueType)
deriving DecidableEq, Repr

/-- Modelled from the spec: the message of an error of the key-value set; the spec fixes only
that it carries the kind of the error and its context, the wording here is one such message. -/
def KvsError.Error : KvsError → String
  | .DuplicateKeyError key ns => "DuplicateKeyError: " ++ key ++ " [" ++ ns.getD "" ++ "]"
  | .KeyNotFoundError key ns => "KeyNotFoundError: " ++ key ++ " [" ++ ns.getD "" ++ "]"
  | .TypeMismatchError key ns _ => "TypeMismatchError: " ++ key ++ " [" ++ ns.getD "" ++ "]"

/-- Modelled from the spec: `KeyValueSet` of section 3 (the source of `AXEventKeyValueSet` is not
in the translated file): the bindings in insertion order, and the marker and nice-name
annotations, each kept in the order in which it was attached. -/
structure AXEventKeyValueSet where
  entries : List Binding
  sources : List AxEventKeyValueSetSourceMark
  datas : List AxEventKeyValueSetDataMark
  userDefined : List AxEventKeyValueSetUserDefineMark
  niceNames : List AxEventKeyValueSetNiceNames
deriving DecidableEq, Repr

namespace AXEventKeyValueSet

/-- Modelled from the spec: the empty set that `NewAXEventKeyValueSet` returns. -/
def empty : AXEventKeyValueSet :=
  { entries := [], sources := [], datas := [], userDefined := [], niceNames := [] }

/-- The binding stored for (key, namespace), if there is one. -/
def find? (kvs : AXEventKeyValueSet) (key : String) (ns : Option String) : Option Binding :=
  kvs.entries.find? (fun b => decide (b.key = key ∧ b.ns = ns))

/-- Whether (key, namespace) is bound in the set. -/
def has (kvs : AXEventKeyValueSet) (key : String) (ns : Option String) : Bool :=
  (kvs.find? key ns).isSome

/-- Modelled from the spec: `AddKeyValue` "inserts a new KeyEntry→TypedValue binding.  Fails
with DuplicateKeyError if (key, namespace) already exists.  Value and type must be consistent;
mismatch fails with TypeMismatchError." -/
def AddKeyValue (kvs : AXEventKeyValueSet) (key : String) (ns : Option String) (value : Value)
    (vt : AXEventValueType) : Except KvsError AXEventKeyValueSet :=
  if kvs.has key ns then .error (.DuplicateKeyError key ns)
  else
    match typed value vt with
    | none => .error (.TypeMismatchError key ns vt)
    | some tv => .ok { kvs with entries := kvs.entries ++ [⟨key, ns, tv⟩] }

/-- Modelled from the spec: `MarkAsSource` attaches the annotation to an existing entry and
fails with KeyNotFoundError if (key, namespace) is absent. -/
def MarkAsSource (kvs : AXEventKeyValueSet) (key : String) (ns : Option String) :
    Except KvsError AXEventKeyValueSet :=
  if kvs.has key ns then .ok { kvs with sources := kvs.sources ++ [⟨key, ns⟩] }
  else .error (.KeyNotFoundError key ns)

/-- Modelled from the spec: `MarkAsData`, as `MarkAsSource`. -/
def MarkAsData (kvs : AXEventKeyValueSet) (key : String) (ns : Option String) :
    Except KvsError AXEventKeyValueSet :=
  if kvs.has key ns then .ok { kvs with datas := kvs.datas ++ [⟨key, ns⟩] }
  else .error (.KeyNotFoundError key ns)

/-- Modelled from the spec: `MarkAsUserDefined(tag)`, as `MarkAsSource`. -/
def MarkAsUserDefined (kvs : AXEventKeyValueSet) (key : String) (ns : Option String)
    (tag : Option String) : Except KvsError AXEventKeyValueSet :=
  if kvs.has key ns then .ok { kvs with userDefined := kvs.userDefined ++ [⟨key, ns, tag⟩] }
  else .error (.KeyNotFoundError key ns)

/-- Modelled from the spec: `AddNiceNames`, as `MarkAsSource`. -/
def AddNiceNames (kvs : AXEventKeyValueSet) (key : String) (ns : Option String)
    (keyNiceName valueNiceName : Option String) : Except KvsError AXEventKeyValueSet :=
  if kvs.has key ns then
    .ok { kvs with niceNames := kvs.niceNames ++ [⟨key, ns, keyNiceName, valueNiceName⟩] }
  else .error (.KeyNotFoundError key ns)

/-- Modelled from the spec: `Get<Kind>` "returns the value if present and its stored tag matches
the kind; fails with KeyNotFoundError if absent, TypeMismatchError if the tag differs"; here for
Integer. -/
def GetInteger (kvs : AXEventKeyValueSet) (key : String) (ns : Option String) :
    Except KvsError Int :=
  match kvs.find? key ns with
  | none => .error (.KeyNotFoundError key ns)
  | some b =>
    match b.value with
    | .Integer i => .ok i
    | _ => .error (.TypeMismatchError key ns .AXValueTypeInt)

/-- Modelled from the spec: `Get<Kind>` for Double. -/
def GetDouble (kvs : AXEventKeyValueSet) (key : String) (ns : Option String) :
    Except KvsError Float64 :=
  match kvs.find? key ns with
  | none => .error (.KeyNotFoundError key ns)
  | some b =>
    match b.value with
    | .Double x => .ok x
    | _ => .error (.TypeMismatchError key ns .AXValueTypeDouble)

/-- Modelled from the spec: `Get<Kind>` for String. -/
def GetString (kvs : AXEventKeyValueSet) (key : String) (ns : Option String) :
    Except KvsError String :=
  match kvs.find? key ns with
  | none => .error (.KeyNotFoundError key ns)
  | some b =>
    match b.value with
    | .String s => .ok s
    | _ => .error (.TypeMismatchError key ns .AXValueTypeString)

/-- Modelled from the spec: `Get<Kind>` for Boolean. -/
def GetBoolean (kvs : AXEventKeyValueSet) (key : String) (ns : Option String) :
    Except KvsError Bool :=
  match kvs.find? key ns with
  | none => .error (.KeyNotFoundError key ns)
  | some b =>
    match b.value with
    | .Boolean v => .ok v
    | _ => .error (.TypeMismatchError key ns .AXValueTypeBool)

end AXEventKeyValueSet

/-- Modelled from the spec: the key-value set of section 4.1 as an instance of the interface. -/
def specKvs : KvsOps AXEventKeyValueSet KvsError where
  NewAXEventKeyValueSet := AXEventKeyValueSet.empty
  AddKeyValue := AXEventKeyValueSet.AddKeyValue
  MarkAsSource := AXEventKeyValueSet.MarkAsSource
  MarkAsData := AXEventKeyValueSet.MarkAsData
  MarkAsUserDefined := AXEventKeyValueSet.MarkAsUserDefined
  AddNiceNames := AXEventKeyValueSet.AddNiceNames
  GetInteger := AXEventKeyValueSet.GetInteger
  GetDouble := AXEventKeyValueSet.GetDouble
  GetString := AXEventKeyValueSet.GetString
  GetBoolean := AXEventKeyValueSet.GetBoolean
  Error := KvsError.Error

/-! ## A key-value set for exercising the error paths -/

/-- A key-value set that keeps the inserted entries in a list and rejects every insertion under
the key `bad`, whatever the namespace and the value; all other methods succeed and change
nothing, and the getters find nothing. -/
def rejecting (bad : String) : KvsOps (List KeyValueEntrie) String where
  NewAXEventKeyValueSet := []
  AddKeyValue := fun s key ns value vt =>
    if key = bad then .error ("rejected " ++ key) else .ok (s ++ [⟨key, ns, value, vt⟩])
  MarkAsSource := fun s _ _ => .ok s
  MarkAsData := fun s _ _ => .ok s
  MarkAsUserDefined := fun s _ _ _ => .ok s
  AddNiceNames := fun s _ _ _ _ => .ok s
  GetInteger := fun _ key _ => .error ("no " ++ key)
  GetDouble := fun _ key _ => .error ("no " ++ key)
  GetString := fun _ key _ => .error ("no " ++ key)
  GetBoolean := fun _ key _ => .error ("no " ++ key)
  Error := fun err => err

/-! ## Concrete inputs of the scenarios -/

/-- The payload entry port = 3 (integer), under no namespace. -/
def portEntry : KeyValueEntrie :=
  { Key := "port", Namespace := none, Value := .int 3, ValueType := .AXValueTypeInt }

/-- The payload entry state = true (boolean), under no namespace. -/
def stateEntry : KeyValueEntrie :=
  { Key := "state", Namespace := none, Value := .bool true, ValueType := .AXValueTypeBool }

/-- The set of section 4.1 holding topic0 "Device", topic1 "IO" (both under tnsAxis) and
port = 3. -/
def deviceIoPort : AXEventKeyValueSet :=
  { entries := [⟨"topic0", some "tnsAxis", .String "Device"⟩,
                ⟨"topic1", some "tnsAxis", .String "IO"⟩,
                ⟨"port", none, .Integer 3⟩],
    sources := [], datas := [], userDefined := [], niceNames := [] }

/-- The app setup of the platform event scenario: app name "MyApp", friendly name
"My Application". -/
def myApp : Setup := { AppName := "MyApp", FriendlyName := "My Application" }

/-- The set of section 4.1 that the platform event scenario builds. -/
def myAppActive : AXEventKeyValueSet :=
  { entries := [⟨"topic0", some "tnsAxis", .String "CameraApplicationPlatform"⟩,
                ⟨"topic1", some "tnsAxis", .String "MyApp"⟩,
                ⟨"topic2", some "tnsAxis", .String "Active"⟩],
    sources := [], datas := [], userDefined := [],
    niceNames := [⟨"topic2", some "tnsAxis", none, some "My Application: Active"⟩] }

/-- Some entry of the list `es` has the key `key` and the namespace `ns`. -/
def Present (es : List KeyValueEntrie) (key : String) (ns : Option String) : Prop :=
  ∃ kv ∈ es, kv.Key = key ∧ kv.Namespace = ns

/-- Some supplied source, data or user defined marker, or some supplied nice name, refers to
(`key`, `ns`). -/
def Referenced (source_markers : List AxEventKeyValueSetSourceMark)
    (data_markers : List AxEventKeyValueSetDataMark)
    (user_defined_markers : List AxEventKeyValueSetUserDefineMark)
    (nice_names : List AxEventKeyValueSetNiceNames) (key : String) (ns : Option String) : Prop :=
  (∃ m ∈ source_markers, m.Key = key ∧ m.Namespace = ns)
    ∨ (∃ m ∈ data_markers, m.Key = key ∧ m.Namespace = ns)
    ∨ (∃ m ∈ user_defined_markers, m.Key = key ∧ m.Namespace = ns)
    ∨ (∃ n ∈ nice_names, n.Key = key ∧ n.Namespace = ns)

/-- The set of section 4.1 that `NewTnsAxisEvent` returns for the platform event scenario with
the payload port = 3. -/
def myAppActivePort : AXEventKeyValueSet :=
  { entries := [⟨"topic0", some "tnsAxis", .String "CameraApplicationPlatform"⟩,
                ⟨"topic1", some "tnsAxis", .String "MyApp"⟩,
                ⟨"topic2", some "tnsAxis", .String "Active"⟩,
                ⟨"port", none, .Integer 3⟩],
    sources := [], datas := [], userDefined := [], niceNames := [] }

/-! ## The dispatch of the marshaller, as a table -/

/-- The getter that the `switch field.Kind()` of `UnmarshalEvent` has a case for: `Int`,
`Float64`, `String` and `Bool` have one, no other kind has. -/
def dispatch : Kind → Option Getter
  | .Int => some .GetInteger
  | .Float64 => some .GetDouble
  | .String => some .GetString
  | .Bool => some .GetBoolean
  | _ => none

/-- The word for the kind in the error message of a failed getter. -/
def Getter.what : Getter → String
  | .GetInteger => "integer"
  | .GetDouble => "double"
  | .GetString => "string"
  | .GetBoolean => "boolean"

/-- The tag of the values a getter returns. -/
def Getter.tag : Getter → AXEventValueType
  | .GetInteger => .AXValueTypeInt
  | .GetDouble => .AXValueTypeDouble
  | .GetString => .AXValueTypeString
  | .GetBoolean => .AXValueTypeBool

/-- A call of the getter `g`, with its result as a Go value. -/
def KvsOps.get {σ ε : Type} (ops : KvsOps σ ε) (kvs : σ) (g : Getter) (key : String)
    (ns : Option String) : Except ε Value :=
  match g with
  | .GetInteger => (ops.GetInteger kvs key ns).map Value.int
  | .GetDouble => (ops.GetDouble kvs key ns).map Value.double
  | .GetString => (ops.GetString kvs key ns).map Value.string
  | .GetBoolean => (ops.GetBoolean kvs key ns).map Value.bool

/-- The getter call a field gives rise to: none for a field that cannot be set or whose kind has
no case, and otherwise the getter of its kind at its lookup key under the nil namespace. -/
def lookupOf (f : StructField) : Option Lookup :=
  if f.CanSet then
    (dispatch f.Kind).map
      (fun g => { getter := g, key := if f.eventKey = "" then ToLower f.Name else f.eventKey,
                  ns := none })
  else none

/-- The field `f` after its turn in the loop when no getter fails: unchanged when it gives rise
to no getter call, and holding the value the getter returned otherwise. -/
def readField {σ ε : Type} (ops : KvsOps σ ε) (e : Event σ) (f : StructField) : StructField :=
  match lookupOf ToLower f with
  | none => f
  | some l =>
    match ops.get e.Kvs l.getter l.key l.ns with
    | .ok v => { f with value := v }
    | .error _ => f

/-- The getter call of field `f`, if it has one, succeeds. -/
def ReadsOk {σ ε : Type} (ops : KvsOps σ ε) (e : Event σ) (f : StructField) : Prop :=
  ∀ l, lookupOf ToLower f = some l → ∃ v, ops.get e.Kvs l.getter l.key l.ns = .ok v

/-- The field `f` holding the value that the set `kvs` stores, under the nil namespace, at the
lookup key of `f`: the `eventKey` label when it is not empty, the lower-cased name otherwise
(the field is left as it is when nothing is stored there). -/
def stored (kvs : AXEventKeyValueSet) (f : StructField) : StructField :=
  match kvs.find? (if f.eventKey = "" then ToLower f.Name else f.eventKey) none with
  | some b => { f with value := b.value.payload }
  | none => f

/-- The event of the marshaller scenario: age = 42 (integer) and name = "Alice" (string). -/
def aliceEvent : Event AXEventKeyValueSet :=
  { Kvs := { entries := [⟨"age", none, .Integer 42⟩, ⟨"name", none, .String "Alice"⟩],
             sources := [], datas := [], userDefined := [], niceNames := [] } }

/-- The event of the marshaller scenario without the entry for age. -/
def nameOnlyEvent : Event AXEventKeyValueSet :=
  { Kvs := { entries := [⟨"name", none, .String "Alice"⟩],
             sources := [], datas := [], userDefined := [], niceNames := [] } }

/-- The field `Age int` with the label eventKey:"age", holding 0. -/
def ageField : StructField :=
  { Name := "Age", eventKey := "age", CanSet := true, Kind := .Int, value := .int 0 }

/-- The field `Name string` without a label, holding the empty string. -/
def nameField : StructField :=
  { Name := "Name", eventKey := "", CanSet := true, Kind := .String, value := .string "" }

/-- An event whose set holds count = 5 (integer). -/
def countEvent : Event AXEventKeyValueSet :=
  { Kvs := { entries := [⟨"count", none, .Integer 5⟩],
             sources := [], datas := [], userDefined := [], niceNames := [] } }

/-- The settable field `Count` of kind `k`, without a label, holding 7. -/
def countField (k : Kind) : StructField :=
  { Name := "Count", eventKey := "", CanSet := true, Kind := k, value := .int 7 }

/-- A field holding a slice, which cannot be set (an unexported field `cache []string`). -/
def cacheField : StructField :=
  { Name := "cache", eventKey := "", CanSet := false, Kind := .Slice, value := .other "[]" }

/-- A settable field of kind `Struct`, for which the marshaller has no case. -/
def metaField : StructField :=
  { Name := "Meta", eventKey := "", CanSet := true, Kind := .Struct, value := .other "Meta{}" }

/-- The set of section 4.1 that `NewTnsAxisEvent` returns for the platform event scenario with
the payload port = 3, state = true. -/
def myAppActivePortState : AXEventKeyValueSet :=
  { entries := [⟨"topic0", some "tnsAxis", .String "CameraApplicationPlatform"⟩,
                ⟨"topic1", some "tnsAxis", .String "MyApp"⟩,
                ⟨"topic2", some "tnsAxis", .String "Active"⟩,
                ⟨"port", none, .Integer 3⟩,
                ⟨"state", none, .Boolean true⟩],
    sources := [], datas := [], userDefined := [], niceNames := [] }

/-- The entry `kv` cannot be inserted after the entries `before` under the contract of
section 4.1: its value is inconsistent with its declared type, or some entry of `before` has the
same key and namespace. -/
def Unacceptable (before : List KeyValueEntrie) (kv : KeyValueEntrie) : Prop :=
  typed kv.Value kv.ValueType = none ∨ Present before kv.Key kv.Namespace

/-! ## From a record to a payload -/

/-- The type tag that matches a field kind: Integer for `Int`, Double for `Float64`, Boolean for
`Bool`, String for `String` (and for the kinds the marshaller does not read). -/
def kindTag : Kind → AXEventValueType
  | .Int => .AXValueTypeInt
  | .Float64 => .AXValueTypeDouble
  | .Bool => .AXValueTypeBool
  | _ => .AXValueTypeString

/-- The payload entry for a field: keyed by the lookup key of the field, under the nil
namespace, carrying the value of the field with the type tag that matches its kind. -/
def payloadEntry (f : StructField) : KeyValueEntrie :=
  { Key := if f.eventKey = "" then ToLower f.Name else f.eventKey, Namespace := none,
    Value := f.value, ValueType := kindTag f.Kind }

/-- The payload for a record: one entry per settable field, in the order of the fields. -/
def payloadOf (fields : List StructField) : List KeyValueEntrie :=
  (fields.filter (fun f => f.CanSet)).map (payloadEntry ToLower)

/-- The field is of kind int, float64, string or bool and holds a value of that kind. -/
def WellTyped (f : StructField) : Prop :=
  (f.Kind = .Int ∧ ∃ i, f.value = .int i)
    ∨ (f.Kind = .Float64 ∧ ∃ x, f.value = .double x)
    ∨ (f.Kind = .String ∧ ∃ s, f.value = .string s)
    ∨ (f.Kind = .Bool ∧ ∃ b, f.value = .bool b)

/-- Field `g` is the field `f` of another record of the same type: same name, label, settability
and kind; the values may differ. -/
def SameType (f g : StructField) : Prop :=
  g.Name = f.Name ∧ g.eventKey = f.eventKey ∧ g.CanSet = f.CanSet ∧ g.Kind = f.Kind

/-- The record of the marshaller scenario with Age = 42 and Name = "Alice". -/
def aliceRecord : List StructField :=
  [{ ageField with value := .int 42 }, { nameField with value := .string "Alice" }]

variable {ToLower}

/-! ## The topic builders as labelled insertion sequences -/

theorem addKeyValues_eq_insertLabelled {σ ε : Type} (ops : KvsOps σ ε) (s : σ)
    (keyvalues : List KeyValueEntrie) :
    addKeyValues ops s keyvalues
      = insertLabelled ops s (keyvalues.map (fun kv => (kv.Key, kv))) := by
  induction keyvalues generalizing s with
  | nil => rfl
  | cons kv rest ih =>
    simp only [addKeyValues, List.map_cons, insertLabelled, KvsOps.add]
    cases ops.AddKeyValue s kv.Key kv.Namespace kv.Value kv.ValueType with
    | error err => rfl
    | ok s1 => exact ih s1

theorem NewTns1AxisEvent_eq_insertLabelled {σ ε : Type} (ops : KvsOps σ ε)
    (topic0 topic1 : String) (topic2 topic3 : Option String) (keyvalues : List KeyValueEntrie) :
    NewTns1AxisEvent ops topic0 topic1 topic2 topic3 keyvalues
      = insertLabelled ops ops.NewAXEventKeyValueSet
          (labelled "topic2" OnfivNameSpaceTns1 topic0 topic1 topic2 topic3 keyvalues) := by
  unfold NewTns1AxisEvent labelled
  simp only [List.cons_append, List.nil_append, insertLabelled, KvsOps.add, topicEntry]
  cases ops.AddKeyValue ops.NewAXEventKeyValueSet "topic0" (some OnfivNameSpaceTns1)
      (.string topic0) .AXValueTypeString with
  | error err => rfl
  | ok s0 =>
    simp only []
    cases ops.AddKeyValue s0 "topic1" (some OnfivNameSpaceTnsAxis) (.string topic1)
        .AXValueTypeString with
    | error err => rfl
    | ok s1 =>
      simp only []
      cases topic2 with
      | none =>
        cases topic3 with
        | none => simpa using addKeyValues_eq_insertLabelled ops s1 keyvalues
        | some t3 =>
          simp only [Option.map_some', Option.map_none', Option.toList, List.nil_append,
            List.cons_append, insertLabelled, KvsOps.add]
          cases ops.AddKeyValue s1 "topic3" (some OnfivNameSpaceTnsAxis) (.string t3)
              .AXValueTypeString with
          | error err => rfl
          | ok s3 => simpa using addKeyValues_eq_insertLabelled ops s3 keyvalues
      | some t2 =>
        simp only [Option.map_some', Option.toList, List.nil_append,
          List.cons_append, insertLabelled, KvsOps.add]
        cases ops.AddKeyValue s1 "topic2" (some OnfivNameSpaceTnsAxis) (.string t2)
            .AXValueTypeString with
        | error err => rfl
        | ok s2 =>
          simp only []
          cases topic3 with
          | none => simpa using addKeyValues_eq_insertLabelled ops s2 keyvalues
          | some t3 =>
            simp only [Option.map_some', Option.toList, List.nil_append,
              List.cons_append, insertLabelled, KvsOps.add]
            cases ops.AddKeyValue s2 "topic3" (some OnfivNameSpaceTnsAxis) (.string t3)
                .AXValueTypeString with
            | error err => rfl
            | ok s3 => simpa using addKeyValues_eq_insertLabelled ops s3 keyvalues

theorem NewTnsAxisEvent_eq_insertLabelled {σ ε : Type} (ops : KvsOps σ ε)
    (topic0 topic1 : String) (topic2 topic3 : Option String) (keyvalues : List KeyValueEntrie) :
    NewTnsAxisEvent ops topic0 topic1 topic2 topic3 keyvalues
      = insertLabelled ops ops.NewAXEventKeyValueSet
          (labelled "topic3" OnfivNameSpaceTnsAxis topic0 topic1 topic2 topic3 keyvalues) := by
  unfold NewTnsAxisEvent labelled
  simp only [List.cons_append, List.nil_append, insertLabelled, KvsOps.add, topicEntry]
  cases ops.AddKeyValue ops.NewAXEventKeyValueSet "topic0" (some OnfivNameSpaceTnsAxis)
      (.string topic0) .AXValueTypeString with
  | error err => rfl
  | ok s0 =>
    simp only []
    cases ops.AddKeyValue s0 "topic1" (some OnfivNameSpaceTnsAxis) (.string topic1)
        .AXValueTypeString with
    | error err => rfl
    | ok s1 =>
      simp only []
      cases topic2 with
      | none =>
        cases topic3 with
        | none => simpa using addKeyValues_eq_insertLabelled ops s1 keyvalues
        | some t3 =>
          simp only [Option.map_some', Option.map_none', Option.toList, List.nil_append,
            List.cons_append, insertLabelled, KvsOps.add]
          cases ops.AddKeyValue s1 "topic3" (some OnfivNameSpaceTnsAxis) (.string t3)
              .AXValueTypeString with
          | error err => rfl
          | ok s3 => simpa using addKeyValues_eq_insertLabelled ops s3 keyvalues
      | some t2 =>
        simp only [Option.map_some', Option.toList, List.nil_append,
          List.cons_append, insertLabelled, KvsOps.add]
        cases ops.AddKeyValue s1 "topic2" (some OnfivNameSpaceTnsAxis) (.string t2)
            .AXValueTypeString with
        | error err => rfl
        | ok s2 =>
          simp only []
          cases topic3 with
          | none => simpa using addKeyValues_eq_insertLabelled ops s2 keyvalues
          | some t3 =>
            simp only [Option.map_some', Option.toList, List.nil_append,
              List.cons_append, insertLabelled, KvsOps.add]
            cases ops.AddKeyValue s2 "topic3" (some OnfivNameSpaceTnsAxis) (.string t3)
                .AXValueTypeString with
            | error err => rfl
            | ok s3 => simpa using addKeyValues_eq_insertLabelled ops s3 keyvalues

theorem labelled_map_snd (label3 ns0 topic0 topic1 : String) (topic2 topic3 : Option String)
    (keyvalues : List KeyValueEntrie) :
    (labelled label3 ns0 topic0 topic1 topic2 topic3 keyvalues).map Prod.snd
      = insertions ns0 topic0 topic1 topic2 topic3 keyvalues := by
  cases topic2 <;> cases topic3 <;> simp [labelled, insertions, Function.comp_def]

/-! ## Insertion into the key-value set of section 4.1 -/

theorem typed_some {v : Value} {vt : AXEventValueType} {tv : TypedValue}
    (h : typed v vt = some tv) : tv.payload = v ∧ tv.tag = vt := by
  cases v <;> cases vt <;> simp [typed] at h <;> subst h <;> exact ⟨rfl, rfl⟩

theorem specKvs_add_ok {s t : AXEventKeyValueSet} {kv : KeyValueEntrie}
    (h : specKvs.add s kv = .ok t) :
    ∃ b : Binding, b.toKeyValueEntrie = kv ∧ s.has kv.Key kv.Namespace = false
      ∧ t = { s with entries := s.entries ++ [b] } := by
  simp only [KvsOps.add, specKvs, AXEventKeyValueSet.AddKeyValue] at h
  cases hhas : s.has kv.Key kv.Namespace with
  | true => simp [hhas] at h
  | false =>
    simp only [hhas] at h
    cases htyped : typed kv.Value kv.ValueType with
    | none => simp [htyped] at h
    | some tv =>
      simp only [htyped] at h
      have ht : t = { s with entries := s.entries ++ [⟨kv.Key, kv.Namespace, tv⟩] } := by
        simpa using h.symm
      refine ⟨⟨kv.Key, kv.Namespace, tv⟩, ?_, rfl, ht⟩
      obtain ⟨hp, hg⟩ := typed_some htyped
      cases kv
      simp_all [Binding.toKeyValueEntrie]

theorem specKvs_insertLabelled_entries {reqs : List (String × KeyValueEntrie)}
    {s t : AXEventKeyValueSet} (h : insertLabelled specKvs s reqs = .ok t) :
    t.entries.map Binding.toKeyValueEntrie
      = s.entries.map Binding.toKeyValueEntrie ++ reqs.map Prod.snd := by
  induction reqs generalizing s with
  | nil =>
    simp only [insertLabelled, Except.ok.injEq] at h
    simp [h]
  | cons r rest ih =>
    obtain ⟨label, kv⟩ := r
    simp only [insertLabelled] at h
    cases hadd : specKvs.add s kv with
    | error err => simp [hadd] at h
    | ok s1 =>
      simp only [hadd] at h
      obtain ⟨b, hb, -, hs1⟩ := specKvs_add_ok hadd
      rw [ih h, hs1]
      simp [hb]

/-- Claim C1.  Whenever a topic builder returns a set without error (on the key-value set of
section 4.1), the entries of the set, in insertion order and read as (key, namespace, value,
type), are exactly topic0 (under tns1 for `NewTns1AxisEvent`, under tnsAxis for
`NewTnsAxisEvent`), topic1, topic2 and topic3 when present (each a String under tnsAxis), and
then the payload entries in the order supplied. -/
theorem topic_builder_entries (topic0 topic1 : String) (topic2 topic3 : Option String)
    (keyvalues : List KeyValueEntrie) :
    (∀ kvs, NewTns1AxisEvent specKvs topic0 topic1 topic2 topic3 keyvalues = .ok kvs →
      kvs.entries.map Binding.toKeyValueEntrie
        = [topicEntry "topic0" OnfivNameSpaceTns1 topic0,
           topicEntry "topic1" OnfivNameSpaceTnsAxis topic1]
          ++ (topic2.map (topicEntry "topic2" OnfivNameSpaceTnsAxis)).toList
          ++ (topic3.map (topicEntry "topic3" OnfivNameSpaceTnsAxis)).toList
          ++ keyvalues)
    ∧ (∀ kvs, NewTnsAxisEvent specKvs topic0 topic1 topic2 topic3 keyvalues = .ok kvs →
      kvs.entries.map Binding.toKeyValueEntrie
        = [topicEntry "topic0" OnfivNameSpaceTnsAxis topic0,
           topicEntry "topic1" OnfivNameSpaceTnsAxis topic1]
          ++ (topic2.map (topicEntry "topic2" OnfivNameSpaceTnsAxis)).toList
          ++ (topic3.map (topicEntry "topic3" OnfivNameSpaceTnsAxis)).toList
          ++ keyvalues) := by
  constructor
  · intro kvs h
    rw [NewTns1AxisEvent_eq_insertLabelled] at h
    have := specKvs_insertLabelled_entries h
    rw [labelled_map_snd] at this
    simpa [specKvs, AXEventKeyValueSet.empty, insertions] using this
  · intro kvs h
    rw [NewTnsAxisEvent_eq_insertLabelled] at h
    have := specKvs_insertLabelled_entries h
    rw [labelled_map_snd] at this
    simpa [specKvs, AXEventKeyValueSet.empty, insertions] using this

/-- The scenario of claim C1: topic0 "Device", topic1 "IO", no topic2 and topic3, and the payload
entry port = 3 (integer) give a set whose entries are exactly topic0, topic1, port, in that
order. -/
theorem topic_builder_entries_witness :
    NewTnsAxisEvent specKvs "Device" "IO" none none [⟨"port", none, .int 3, .AXValueTypeInt⟩]
      = .ok { entries := [⟨"topic0", some "tnsAxis", .String "Device"⟩,
                          ⟨"topic1", some "tnsAxis", .String "IO"⟩,
                          ⟨"port", none, .Integer 3⟩],
              sources := [], datas := [], userDefined := [], niceNames := [] }
    ∧ ([⟨"topic0", some "tnsAxis", .String "Device"⟩, ⟨"topic1", some "tnsAxis", .String "IO"⟩,
        ⟨"port", none, .Integer 3⟩] : List Binding).map Binding.toKeyValueEntrie
      = [topicEntry "topic0" OnfivNameSpaceTnsAxis "Device",
         topicEntry "topic1" OnfivNameSpaceTnsAxis "IO",
         ⟨"port", none, .int 3, .AXValueTypeInt⟩] :=
  ⟨by rfl,
   (topic_builder_entries "Device" "IO" none none [⟨"port", none, .int 3, .AXValueTypeInt⟩]).2
     { entries := [⟨"topic0", some "tnsAxis", .String "Device"⟩,
                   ⟨"topic1", some "tnsAxis", .String "IO"⟩,
                   ⟨"port", none, .Integer 3⟩],
       sources := [], datas := [], userDefined := [], niceNames := [] } (by rfl)⟩

/-! ## Fail-fast behaviour of a labelled insertion sequence -/

theorem insertLabelled_ok {σ ε : Type} (ops : KvsOps σ ε) {reqs : List (String × KeyValueEntrie)}
    {s t : σ} (h : insertLabelled ops s reqs = .ok t) : Inserted ops s (reqs.map Prod.snd) t := by
  induction reqs generalizing s with
  | nil =>
    simp only [insertLabelled, Except.ok.injEq] at h
    subst h
    exact Inserted.nil s
  | cons r rest ih =>
    obtain ⟨label, kv⟩ := r
    simp only [insertLabelled] at h
    cases hadd : ops.add s kv with
    | error err => simp [hadd] at h
    | ok s1 =>
      simp only [hadd] at h
      exact Inserted.cons hadd (ih h)

theorem insertLabelled_of_inserted {σ ε : Type} (ops : KvsOps σ ε)
    {reqs : List (String × KeyValueEntrie)} {s t : σ}
    (h : Inserted ops s (reqs.map Prod.snd) t) : insertLabelled ops s reqs = .ok t := by
  induction reqs generalizing s with
  | nil =>
    cases h
    rfl
  | cons r rest ih =>
    obtain ⟨label, kv⟩ := r
    cases h with
    | cons hadd hrest =>
      simp only [insertLabelled]
      simp only [] at hadd
      rw [hadd]
      exact ih hrest

theorem insertLabelled_first_failure {σ ε : Type} (ops : KvsOps σ ε)
    {pre post : List (String × KeyValueEntrie)} {label : String} {kv : KeyValueEntrie}
    {s s1 : σ} {err : ε} (hpre : Inserted ops s (pre.map Prod.snd) s1)
    (hfail : ops.add s1 kv = .error err) :
    insertLabelled ops s (pre ++ (label, kv) :: post)
      = .error (addKeyValueError ops label err) := by
  induction pre generalizing s with
  | nil =>
    cases hpre
    simp [insertLabelled, hfail]
  | cons r rest ih =>
    obtain ⟨l, k⟩ := r
    cases hpre with
    | cons hadd hrest =>
      simp only [List.cons_append, insertLabelled]
      simp only [] at hadd
      rw [hadd]
      exact ih hrest

theorem insertLabelled_error {σ ε : Type} (ops : KvsOps σ ε)
    {reqs : List (String × KeyValueEntrie)} {s : σ} {e : GoError ε}
    (h : insertLabelled ops s reqs = .error e) :
    ∃ pre label kv post s1 err, reqs = pre ++ (label, kv) :: post
      ∧ Inserted ops s (pre.map Prod.snd) s1 ∧ ops.add s1 kv = .error err
      ∧ e = addKeyValueError ops label err := by
  induction reqs generalizing s with
  | nil => simp [insertLabelled] at h
  | cons r rest ih =>
    obtain ⟨label, kv⟩ := r
    simp only [insertLabelled] at h
    cases hadd : ops.add s kv with
    | error err =>
      simp only [hadd, Except.error.injEq] at h
      exact ⟨[], label, kv, rest, s, err, rfl, Inserted.nil s, hadd, h.symm⟩
    | ok s1 =>
      simp only [hadd] at h
      obtain ⟨pre, l, k, post, s2, err, hreqs, hins, hfail, he⟩ := ih h
      exact ⟨(label, kv) :: pre, l, k, post, s2, err, by simp [hreqs],
        Inserted.cons hadd hins, hfail, he⟩

/-! ## The log of a traced run -/

theorem traced_add_ok {σ ε : Type} (ops : KvsOps σ ε) {s t : σ} {kv : KeyValueEntrie}
    (log : List Call) (h : ops.add s kv = .ok t) :
    (traced ops).add (s, log) kv = .ok (t, log ++ [kv.call]) := by
  simp only [KvsOps.add] at h
  simp [KvsOps.add, traced, h, logCall, KeyValueEntrie.call]

theorem traced_add_error {σ ε : Type} (ops : KvsOps σ ε) {s : σ} {err : ε}
    {kv : KeyValueEntrie} (log : List Call) (h : ops.add s kv = .error err) :
    (traced ops).add (s, log) kv = .error (err, log ++ [kv.call]) := by
  simp only [KvsOps.add] at h
  simp [KvsOps.add, traced, h, logCall, KeyValueEntrie.call]

theorem traced_inserted {σ ε : Type} (ops : KvsOps σ ε) {s t : σ} {kvs : List KeyValueEntrie}
    (log : List Call) (h : Inserted ops s kvs t) :
    Inserted (traced ops) (s, log) kvs (t, log ++ kvs.map KeyValueEntrie.call) := by
  induction h generalizing log with
  | nil s => simpa using Inserted.nil (s, log)
  | @cons s0 s1 t0 kv rest hadd _ ih =>
    have := ih (log ++ [kv.call])
    simp only [List.append_assoc, List.singleton_append] at this
    exact Inserted.cons (traced_add_ok ops log hadd) (by simpa using this)

theorem split_labelled {reqs : List (String × KeyValueEntrie)} {pre post : List KeyValueEntrie}
    {kv : KeyValueEntrie} (h : reqs.map Prod.snd = pre ++ kv :: post) :
    ∃ lpre label lpost, reqs = lpre ++ (label, kv) :: lpost ∧ lpre.map Prod.snd = pre := by
  obtain ⟨l1, l2, h12, h1, h2⟩ := List.map_eq_append_iff.mp h
  obtain ⟨r, l3, h3, hr, -⟩ := List.map_eq_cons_iff.mp h2
  obtain ⟨label, k⟩ := r
  simp only at hr
  subst hr
  exact ⟨l1, label, l3, by rw [h12, h3], h1⟩

theorem insertLabelled_fail_fast {σ ε : Type} (ops : KvsOps σ ε)
    (lreqs : List (String × KeyValueEntrie)) (reqs : List KeyValueEntrie)
    (hl : lreqs.map Prod.snd = reqs) :
    (∀ pre kv post s1 err, reqs = pre ++ kv :: post →
      Inserted ops ops.NewAXEventKeyValueSet pre s1 → ops.add s1 kv = .error err →
      (∃ msg, insertLabelled ops ops.NewAXEventKeyValueSet lreqs = .error (.wrapError msg err))
      ∧ ∃ msg, insertLabelled (traced ops) (traced ops).NewAXEventKeyValueSet lreqs
          = .error (.wrapError msg (err, (pre ++ [kv]).map KeyValueEntrie.call)))
    ∧ (∀ t, insertLabelled ops ops.NewAXEventKeyValueSet lreqs = .ok t →
      Inserted ops ops.NewAXEventKeyValueSet reqs t
      ∧ insertLabelled (traced ops) (traced ops).NewAXEventKeyValueSet lreqs
          = .ok (t, reqs.map KeyValueEntrie.call)) := by
  subst hl
  constructor
  · intro pre kv post s1 err hreqs hpre hfail
    obtain ⟨lpre, label, lpost, hsplit, hlpre⟩ := split_labelled hreqs
    subst hlpre
    rw [hsplit]
    refine ⟨⟨_, insertLabelled_first_failure ops hpre hfail⟩, ?_⟩
    have htr := traced_inserted ops [] hpre
    have hfl := traced_add_error ops ([] ++ (lpre.map Prod.snd).map KeyValueEntrie.call) hfail
    refine ⟨"failed to add key-value for " ++ label ++ ": " ++ ops.Error err, ?_⟩
    have := @insertLabelled_first_failure _ _ (traced ops) lpre lpost label kv _ _ _ htr hfl
    simpa [addKeyValueError, traced] using this
  · intro t h
    have hins := insertLabelled_ok ops h
    refine ⟨hins, ?_⟩
    have htr := traced_inserted ops [] hins
    simpa [traced] using insertLabelled_of_inserted (traced ops) htr

/-- Claim C2 (the code departs from it).  With a key-value set that rejects the key "topic3",
`NewTns1AxisEvent` with a topic3 fails at the insertion of topic3 and returns an error that wraps
the insertion error but whose message names "topic2"; `NewTnsAxisEvent` on the same input names
"topic3". -/
theorem NewTns1AxisEvent_topic3_error_names_topic2 :
    NewTns1AxisEvent (rejecting "topic3") "Device" "IO" none (some "Port") []
      = .error (.wrapError "failed to add key-value for topic2: rejected topic3"
          "rejected topic3")
    ∧ NewTnsAxisEvent (rejecting "topic3") "Device" "IO" none (some "Port") []
      = .error (.wrapError "failed to add key-value for topic3: rejected topic3"
          "rejected topic3") := by
  constructor <;> rfl

/-- Claim C3.  For both topic builders over any key-value set: if, in the order topic0, topic1,
topic2, topic3, payload, the entries `pre` insert successfully and the next entry `kv` fails with
`err`, the builder returns an error wrapping `err` (and no set), and the calls it made on the set
are exactly the insertions of `pre` and of `kv`, none after it; and if the builder returns a set,
every entry of the sequence was inserted successfully, each exactly once and in order. -/
theorem topic_builders_fail_fast {σ ε : Type} (ops : KvsOps σ ε) (topic0 topic1 : String)
    (topic2 topic3 : Option String) (keyvalues : List KeyValueEntrie) :
    ((∀ pre kv post s1 err,
        insertions OnfivNameSpaceTns1 topic0 topic1 topic2 topic3 keyvalues = pre ++ kv :: post →
        Inserted ops ops.NewAXEventKeyValueSet pre s1 → ops.add s1 kv = .error err →
        (∃ msg, NewTns1AxisEvent ops topic0 topic1 topic2 topic3 keyvalues
          = .error (.wrapError msg err))
        ∧ ∃ msg, NewTns1AxisEvent (traced ops) topic0 topic1 topic2 topic3 keyvalues
          = .error (.wrapError msg (err, (pre ++ [kv]).map KeyValueEntrie.call)))
      ∧ (∀ t, NewTns1AxisEvent ops topic0 topic1 topic2 topic3 keyvalues = .ok t →
        Inserted ops ops.NewAXEventKeyValueSet
          (insertions OnfivNameSpaceTns1 topic0 topic1 topic2 topic3 keyvalues) t
        ∧ NewTns1AxisEvent (traced ops) topic0 topic1 topic2 topic3 keyvalues
          = .ok (t, (insertions OnfivNameSpaceTns1 topic0 topic1 topic2 topic3 keyvalues).map
              KeyValueEntrie.call)))
    ∧ ((∀ pre kv post s1 err,
        insertions OnfivNameSpaceTnsAxis topic0 topic1 topic2 topic3 keyvalues
          = pre ++ kv :: post →
        Inserted ops ops.NewAXEventKeyValueSet pre s1 → ops.add s1 kv = .error err →
        (∃ msg, NewTnsAxisEvent ops topic0 topic1 topic2 topic3 keyvalues
          = .error (.wrapError msg err))
        ∧ ∃ msg, NewTnsAxisEvent (traced ops) topic0 topic1 topic2 topic3 keyvalues
          = .error (.wrapError msg (err, (pre ++ [kv]).map KeyValueEntrie.call)))
      ∧ (∀ t, NewTnsAxisEvent ops topic0 topic1 topic2 topic3 keyvalues = .ok t →
        Inserted ops ops.NewAXEventKeyValueSet
          (insertions OnfivNameSpaceTnsAxis topic0 topic1 topic2 topic3 keyvalues) t
        ∧ NewTnsAxisEvent (traced ops) topic0 topic1 topic2 topic3 keyvalues
          = .ok (t, (insertions OnfivNameSpaceTnsAxis topic0 topic1 topic2 topic3
              keyvalues).map KeyValueEntrie.call))) := by
  constructor
  · have h := insertLabelled_fail_fast ops _ _
      (labelled_map_snd "topic2" OnfivNameSpaceTns1 topic0 topic1 topic2 topic3 keyvalues)
    simp only [← NewTns1AxisEvent_eq_insertLabelled] at h
    exact h
  · have h := insertLabelled_fail_fast ops _ _
      (labelled_map_snd "topic3" OnfivNameSpaceTnsAxis topic0 topic1 topic2 topic3 keyvalues)
    simp only [← NewTnsAxisEvent_eq_insertLabelled] at h
    exact h

/-- An instance of claim C3: with the payload port, port, state on the key-value set of
section 4.1, the second port is a duplicate; `NewTnsAxisEvent` returns an error wrapping the
DuplicateKeyError, and the calls made are the insertions of topic0, topic1, port and port: state is
never inserted. -/
theorem topic_builders_fail_fast_witness :
    insertions OnfivNameSpaceTnsAxis "Device" "IO" none none [portEntry, portEntry, stateEntry]
        = [topicEntry "topic0" OnfivNameSpaceTnsAxis "Device",
           topicEntry "topic1" OnfivNameSpaceTnsAxis "IO", portEntry]
          ++ portEntry :: [stateEntry]
    ∧ specKvs.add deviceIoPort portEntry = .error (.DuplicateKeyError "port" none)
    ∧ (∃ msg, NewTnsAxisEvent specKvs "Device" "IO" none none [portEntry, portEntry, stateEntry]
          = .error (.wrapError msg (.DuplicateKeyError "port" none)))
    ∧ ∃ msg, NewTnsAxisEvent (traced specKvs) "Device" "IO" none none
          [portEntry, portEntry, stateEntry]
        = .error (.wrapError msg (.DuplicateKeyError "port" none,
            [Call.AddKeyValue "topic0" (some "tnsAxis") (.string "Device") .AXValueTypeString,
             Call.AddKeyValue "topic1" (some "tnsAxis") (.string "IO") .AXValueTypeString,
             Call.AddKeyValue "port" none (.int 3) .AXValueTypeInt,
             Call.AddKeyValue "port" none (.int 3) .AXValueTypeInt])) :=
  ⟨rfl, rfl,
   (topic_builders_fail_fast specKvs "Device" "IO" none none
      [portEntry, portEntry, stateEntry]).2.1
     [topicEntry "topic0" OnfivNameSpaceTnsAxis "Device",
      topicEntry "topic1" OnfivNameSpaceTnsAxis "IO", portEntry]
     portEntry [stateEntry] deviceIoPort (.DuplicateKeyError "port" none) rfl
     (Inserted.cons rfl (Inserted.cons rfl (Inserted.cons rfl (Inserted.nil _)))) rfl⟩

/-! ## The marker loops under tracing -/

theorem traced_markSources {σ ε : Type} (ops : KvsOps σ ε)
    {ms : List AxEventKeyValueSetSourceMark} {s t : σ} (log : List Call)
    (h : markSources ops s ms = .ok t) :
    markSources (traced ops) (s, log) ms
      = .ok (t, log ++ ms.map AxEventKeyValueSetSourceMark.call) := by
  induction ms generalizing s log with
  | nil =>
    simp only [markSources, Except.ok.injEq] at h
    simp [markSources, h]
  | cons m rest ih =>
    simp only [markSources] at h
    cases hm : ops.MarkAsSource s m.Key m.Namespace with
    | error err => simp [hm] at h
    | ok s1 =>
      simp only [hm] at h
      simp only [markSources, traced, hm, logCall]
      simpa [traced, AxEventKeyValueSetSourceMark.call] using ih (log ++ [m.call]) h

theorem traced_markDatas {σ ε : Type} (ops : KvsOps σ ε)
    {ms : List AxEventKeyValueSetDataMark} {s t : σ} (log : List Call)
    (h : markDatas ops s ms = .ok t) :
    markDatas (traced ops) (s, log) ms
      = .ok (t, log ++ ms.map AxEventKeyValueSetDataMark.call) := by
  induction ms generalizing s log with
  | nil =>
    simp only [markDatas, Except.ok.injEq] at h
    simp [markDatas, h]
  | cons m rest ih =>
    simp only [markDatas] at h
    cases hm : ops.MarkAsData s m.Key m.Namespace with
    | error err => simp [hm] at h
    | ok s1 =>
      simp only [hm] at h
      simp only [markDatas, traced, hm, logCall]
      simpa [traced, AxEventKeyValueSetDataMark.call] using ih (log ++ [m.call]) h

theorem traced_markUserDefineds {σ ε : Type} (ops : KvsOps σ ε)
    {ms : List AxEventKeyValueSetUserDefineMark} {s t : σ} (log : List Call)
    (h : markUserDefineds ops s ms = .ok t) :
    markUserDefineds (traced ops) (s, log) ms
      = .ok (t, log ++ ms.map AxEventKeyValueSetUserDefineMark.call) := by
  induction ms generalizing s log with
  | nil =>
    simp only [markUserDefineds, Except.ok.injEq] at h
    simp [markUserDefineds, h]
  | cons m rest ih =>
    simp only [markUserDefineds] at h
    cases hm : ops.MarkAsUserDefined s m.Key m.Namespace m.Tag with
    | error err => simp [hm] at h
    | ok s1 =>
      simp only [hm] at h
      simp only [markUserDefineds, traced, hm, logCall]
      simpa [traced, AxEventKeyValueSetUserDefineMark.call] using ih (log ++ [m.call]) h

theorem traced_addNiceNames {σ ε : Type} (ops : KvsOps σ ε)
    {ns : List AxEventKeyValueSetNiceNames} {s t : σ} (log : List Call)
    (h : addNiceNames ops s ns = .ok t) :
    addNiceNames (traced ops) (s, log) ns
      = .ok (t, log ++ ns.map AxEventKeyValueSetNiceNames.call) := by
  induction ns generalizing s log with
  | nil =>
    simp only [addNiceNames, Except.ok.injEq] at h
    simp [addNiceNames, h]
  | cons m rest ih =>
    simp only [addNiceNames] at h
    cases hm : ops.AddNiceNames s m.Key m.Namespace m.KeyNiceName m.ValueNiceName with
    | error err => simp [hm] at h
    | ok s1 =>
      simp only [hm] at h
      simp only [addNiceNames, traced, hm, logCall]
      simpa [traced, AxEventKeyValueSetNiceNames.call] using ih (log ++ [m.call]) h

theorem traced_NewTnsAxisEvent {σ ε : Type} (ops : KvsOps σ ε) (topic0 topic1 : String)
    (topic2 topic3 : Option String) (keyvalues : List KeyValueEntrie) {t : σ}
    (h : NewTnsAxisEvent ops topic0 topic1 topic2 topic3 keyvalues = .ok t) :
    NewTnsAxisEvent (traced ops) topic0 topic1 topic2 topic3 keyvalues
      = .ok (t, (insertions OnfivNameSpaceTnsAxis topic0 topic1 topic2 topic3 keyvalues).map
          KeyValueEntrie.call) := by
  have hff := (insertLabelled_fail_fast ops _ _
    (labelled_map_snd "topic3" OnfivNameSpaceTnsAxis topic0 topic1 topic2 topic3 keyvalues)).2
  simp only [← NewTnsAxisEvent_eq_insertLabelled] at hff
  exact (hff t h).2

/-- The calls a successful `NewCameraApplicationPlatformEvent` makes on the key-value set, in
order: the insertions of its `NewTnsAxisEvent`, the source, data and user defined markers, the
nice names of the caller, and the nice name of topic2. -/
theorem traced_NewCameraApplicationPlatformEvent {σ ε : Type} (ops : KvsOps σ ε)
    (app_setup : Setup) (event_name : String) (event_nice_name : Option String)
    (kvs_entries : List KeyValueEntrie) (source_markers : List AxEventKeyValueSetSourceMark)
    (data_markers : List AxEventKeyValueSetDataMark)
    (user_defined_markers : List AxEventKeyValueSetUserDefineMark)
    (nice_names : List AxEventKeyValueSetNiceNames) (s : σ)
    (h : NewCameraApplicationPlatformEvent ops app_setup event_name event_nice_name kvs_entries
      source_markers data_markers user_defined_markers nice_names = .ok s) :
    NewCameraApplicationPlatformEvent (traced ops) app_setup event_name event_nice_name
        kvs_entries source_markers data_markers user_defined_markers nice_names
      = .ok (s,
          (insertions OnfivNameSpaceTnsAxis "CameraApplicationPlatform" app_setup.AppName
              (some event_name) none kvs_entries).map KeyValueEntrie.call
            ++ source_markers.map AxEventKeyValueSetSourceMark.call
            ++ data_markers.map AxEventKeyValueSetDataMark.call
            ++ user_defined_markers.map AxEventKeyValueSetUserDefineMark.call
            ++ nice_names.map AxEventKeyValueSetNiceNames.call
            ++ [Call.AddNiceNames "topic2" (some OnfivNameSpaceTnsAxis) none
                  (some (app_setup.FriendlyName ++ ": "
                    ++ event_nice_name.getD event_name))]) := by
  unfold NewCameraApplicationPlatformEvent at h ⊢
  cases h0 : NewTnsAxisEvent ops "CameraApplicationPlatform" app_setup.AppName
      (some event_name) none kvs_entries with
  | error err => simp [h0] at h
  | ok s0 =>
    simp only [h0] at h
    rw [traced_NewTnsAxisEvent ops _ _ _ _ _ h0]
    cases h1 : markSources ops s0 source_markers with
    | error err => simp [h1] at h
    | ok s1 =>
      simp only [h1] at h
      simp only [traced_markSources ops _ h1]
      cases h2 : markDatas ops s1 data_markers with
      | error err => simp [h2] at h
      | ok s2 =>
        simp only [h2] at h
        simp only [traced_markDatas ops _ h2]
        cases h3 : markUserDefineds ops s2 user_defined_markers with
        | error err => simp [h3] at h
        | ok s3 =>
          simp only [h3] at h
          simp only [traced_markUserDefineds ops _ h3]
          rw [traced_addNiceNames ops _ h]
          cases event_nice_name <;>
            simp [AxEventKeyValueSetNiceNames.call, topicNiceName]

/-- Claim C4.  When `NewCameraApplicationPlatformEvent` succeeds, over any key-value set, the
calls it made end with the nice names of the caller, in the order of the caller, followed by one
last call that sets, for ("topic2", tnsAxis), no key nice name and the value nice name
"<friendly name>: <event nice name>", or "<friendly name>: <event name>" when no event nice
name is given; no nice name is applied before these. -/
theorem platform_event_topic2_nice_name_last {σ ε : Type} (ops : KvsOps σ ε)
    (app_setup : Setup) (event_name : String) (event_nice_name : Option String)
    (kvs_entries : List KeyValueEntrie) (source_markers : List AxEventKeyValueSetSourceMark)
    (data_markers : List AxEventKeyValueSetDataMark)
    (user_defined_markers : List AxEventKeyValueSetUserDefineMark)
    (nice_names : List AxEventKeyValueSetNiceNames) (s : σ)
    (h : NewCameraApplicationPlatformEvent ops app_setup event_name event_nice_name kvs_entries
      source_markers data_markers user_defined_markers nice_names = .ok s) :
    ∃ before : List Call,
      (∀ c ∈ before, ∀ key ns kn vn, c ≠ Call.AddNiceNames key ns kn vn)
      ∧ NewCameraApplicationPlatformEvent (traced ops) app_setup event_name event_nice_name
          kvs_entries source_markers data_markers user_defined_markers nice_names
        = .ok (s, before
            ++ nice_names.map (fun n => Call.AddNiceNames n.Key n.Namespace n.KeyNiceName
                n.ValueNiceName)
            ++ [Call.AddNiceNames "topic2" (some OnfivNameSpaceTnsAxis) none
                (some (match event_nice_name with
                  | some N => app_setup.FriendlyName ++ ": " ++ N
                  | none => app_setup.FriendlyName ++ ": " ++ event_name))]) := by
  refine ⟨(insertions OnfivNameSpaceTnsAxis "CameraApplicationPlatform" app_setup.AppName
              (some event_name) none kvs_entries).map KeyValueEntrie.call
            ++ source_markers.map AxEventKeyValueSetSourceMark.call
            ++ data_markers.map AxEventKeyValueSetDataMark.call
            ++ user_defined_markers.map AxEventKeyValueSetUserDefineMark.call, ?_, ?_⟩
  · intro c hc key ns kn vn hcall
    subst hcall
    simp [KeyValueEntrie.call, AxEventKeyValueSetSourceMark.call,
      AxEventKeyValueSetDataMark.call, AxEventKeyValueSetUserDefineMark.call] at hc
  · rw [traced_NewCameraApplicationPlatformEvent ops _ _ _ _ _ _ _ _ s h]
    cases event_nice_name <;> rfl

/-- The scenario of claim C4: app name "MyApp", friendly name "My Application", event name
"Active" and no explicit nice name; the build succeeds and its last call gives topic2 the value
nice name "My Application: Active". -/
theorem platform_event_topic2_nice_name_last_witness :
    NewCameraApplicationPlatformEvent specKvs myApp "Active" none [] [] [] [] []
        = .ok myAppActive
    ∧ ∃ before : List Call,
      (∀ c ∈ before, ∀ key ns kn vn, c ≠ Call.AddNiceNames key ns kn vn)
      ∧ NewCameraApplicationPlatformEvent (traced specKvs) myApp "Active" none [] [] [] [] []
        = .ok (myAppActive, before ++ []
            ++ [Call.AddNiceNames "topic2" (some "tnsAxis") none
                (some "My Application: Active")]) :=
  ⟨rfl, platform_event_topic2_nice_name_last specKvs myApp "Active" none [] [] [] [] []
    myAppActive rfl⟩

/-! ## Markers and nice names on the key-value set of section 4.1 -/

theorem has_iff_present (s : AXEventKeyValueSet) (key : String) (ns : Option String) :
    s.has key ns = true ↔ Present (s.entries.map Binding.toKeyValueEntrie) key ns := by
  simp [AXEventKeyValueSet.has, AXEventKeyValueSet.find?, Present, Binding.toKeyValueEntrie,
    List.find?_isSome]

theorem has_of_entries_eq {s t : AXEventKeyValueSet} (h : t.entries = s.entries) (key : String)
    (ns : Option String) : t.has key ns = s.has key ns := by
  simp [AXEventKeyValueSet.has, AXEventKeyValueSet.find?, h]

theorem spec_markSources (s : AXEventKeyValueSet) (ms : List AxEventKeyValueSetSourceMark) :
    ((∀ m ∈ ms, s.has m.Key m.Namespace = true)
      ∧ markSources specKvs s ms = .ok { s with sources := s.sources ++ ms })
    ∨ ∃ m ∈ ms, s.has m.Key m.Namespace = false
      ∧ markSources specKvs s ms = .error (.lib (.KeyNotFoundError m.Key m.Namespace)) := by
  induction ms generalizing s with
  | nil => exact Or.inl ⟨by simp, by simp [markSources]⟩
  | cons m rest ih =>
    cases hm : s.has m.Key m.Namespace with
    | false =>
      exact Or.inr ⟨m, by simp, hm,
        by simp [markSources, specKvs, AXEventKeyValueSet.MarkAsSource, hm]⟩
    | true =>
      have hstep : markSources specKvs s (m :: rest)
          = markSources specKvs { s with sources := s.sources ++ [m] } rest := by
        simp [markSources, specKvs, AXEventKeyValueSet.MarkAsSource, hm]
      have hhas : ∀ key ns, ({ s with sources := s.sources ++ [m] } : AXEventKeyValueSet).has
          key ns = s.has key ns := fun key ns => has_of_entries_eq rfl key ns
      rcases ih { s with sources := s.sources ++ [m] } with ⟨hall, hok⟩ | ⟨b, hb, hbad, herr⟩
      · refine Or.inl ⟨?_, ?_⟩
        · intro x hx
          rcases List.mem_cons.mp hx with rfl | hx
          · exact hm
          · rw [← hhas]; exact hall x hx
        · rw [hstep, hok]; simp
      · exact Or.inr ⟨b, by simp [hb], by rw [← hhas]; exact hbad, by rw [hstep, herr]⟩

theorem spec_markDatas (s : AXEventKeyValueSet) (ms : List AxEventKeyValueSetDataMark) :
    ((∀ m ∈ ms, s.has m.Key m.Namespace = true)
      ∧ markDatas specKvs s ms = .ok { s with datas := s.datas ++ ms })
    ∨ ∃ m ∈ ms, s.has m.Key m.Namespace = false
      ∧ markDatas specKvs s ms = .error (.lib (.KeyNotFoundError m.Key m.Namespace)) := by
  induction ms generalizing s with
  | nil => exact Or.inl ⟨by simp, by simp [markDatas]⟩
  | cons m rest ih =>
    cases hm : s.has m.Key m.Namespace with
    | false =>
      exact Or.inr ⟨m, by simp, hm,
        by simp [markDatas, specKvs, AXEventKeyValueSet.MarkAsData, hm]⟩
    | true =>
      have hstep : markDatas specKvs s (m :: rest)
          = markDatas specKvs { s with datas := s.datas ++ [m] } rest := by
        simp [markDatas, specKvs, AXEventKeyValueSet.MarkAsData, hm]
      have hhas : ∀ key ns, ({ s with datas := s.datas ++ [m] } : AXEventKeyValueSet).has
          key ns = s.has key ns := fun key ns => has_of_entries_eq rfl key ns
      rcases ih { s with datas := s.datas ++ [m] } with ⟨hall, hok⟩ | ⟨b, hb, hbad, herr⟩
      · refine Or.inl ⟨?_, ?_⟩
        · intro x hx
          rcases List.mem_cons.mp hx with rfl | hx
          · exact hm
          · rw [← hhas]; exact hall x hx
        · rw [hstep, hok]; simp
      · exact Or.inr ⟨b, by simp [hb], by rw [← hhas]; exact hbad, by rw [hstep, herr]⟩

theorem spec_markUserDefineds (s : AXEventKeyValueSet)
    (ms : List AxEventKeyValueSetUserDefineMark) :
    ((∀ m ∈ ms, s.has m.Key m.Namespace = true)
      ∧ markUserDefineds specKvs s ms = .ok { s with userDefined := s.userDefined ++ ms })
    ∨ ∃ m ∈ ms, s.has m.Key m.Namespace = false
      ∧ markUserDefineds specKvs s ms
          = .error (.lib (.KeyNotFoundError m.Key m.Namespace)) := by
  induction ms generalizing s with
  | nil => exact Or.inl ⟨by simp, by simp [markUserDefineds]⟩
  | cons m rest ih =>
    cases hm : s.has m.Key m.Namespace with
    | false =>
      exact Or.inr ⟨m, by simp, hm,
        by simp [markUserDefineds, specKvs, AXEventKeyValueSet.MarkAsUserDefined, hm]⟩
    | true =>
      have hstep : markUserDefineds specKvs s (m :: rest)
          = markUserDefineds specKvs { s with userDefined := s.userDefined ++ [m] } rest := by
        simp [markUserDefineds, specKvs, AXEventKeyValueSet.MarkAsUserDefined, hm]
      have hhas : ∀ key ns,
          ({ s with userDefined := s.userDefined ++ [m] } : AXEventKeyValueSet).has
          key ns = s.has key ns := fun key ns => has_of_entries_eq rfl key ns
      rcases ih { s with userDefined := s.userDefined ++ [m] } with
        ⟨hall, hok⟩ | ⟨b, hb, hbad, herr⟩
      · refine Or.inl ⟨?_, ?_⟩
        · intro x hx
          rcases List.mem_cons.mp hx with rfl | hx
          · exact hm
          · rw [← hhas]; exact hall x hx
        · rw [hstep, hok]; simp
      · exact Or.inr ⟨b, by simp [hb], by rw [← hhas]; exact hbad, by rw [hstep, herr]⟩

theorem spec_addNiceNames (s : AXEventKeyValueSet) (ms : List AxEventKeyValueSetNiceNames) :
    ((∀ m ∈ ms, s.has m.Key m.Namespace = true)
      ∧ addNiceNames specKvs s ms = .ok { s with niceNames := s.niceNames ++ ms })
    ∨ ∃ m ∈ ms, s.has m.Key m.Namespace = false
      ∧ addNiceNames specKvs s ms = .error (.lib (.KeyNotFoundError m.Key m.Namespace)) := by
  induction ms generalizing s with
  | nil => exact Or.inl ⟨by simp, by simp [addNiceNames]⟩
  | cons m rest ih =>
    cases hm : s.has m.Key m.Namespace with
    | false =>
      exact Or.inr ⟨m, by simp, hm,
        by simp [addNiceNames, specKvs, AXEventKeyValueSet.AddNiceNames, hm]⟩
    | true =>
      have hstep : addNiceNames specKvs s (m :: rest)
          = addNiceNames specKvs { s with niceNames := s.niceNames ++ [m] } rest := by
        simp [addNiceNames, specKvs, AXEventKeyValueSet.AddNiceNames, hm]
      have hhas : ∀ key ns, ({ s with niceNames := s.niceNames ++ [m] } : AXEventKeyValueSet).has
          key ns = s.has key ns := fun key ns => has_of_entries_eq rfl key ns
      rcases ih { s with niceNames := s.niceNames ++ [m] } with
        ⟨hall, hok⟩ | ⟨b, hb, hbad, herr⟩
      · refine Or.inl ⟨?_, ?_⟩
        · intro x hx
          rcases List.mem_cons.mp hx with rfl | hx
          · exact hm
          · rw [← hhas]; exact hall x hx
        · rw [hstep, hok]; simp
      · exact Or.inr ⟨b, by simp [hb], by rw [← hhas]; exact hbad, by rw [hstep, herr]⟩

theorem specKvs_insertLabelled_frame {reqs : List (String × KeyValueEntrie)}
    {s t : AXEventKeyValueSet} (h : insertLabelled specKvs s reqs = .ok t) :
    t.sources = s.sources ∧ t.datas = s.datas ∧ t.userDefined = s.userDefined
      ∧ t.niceNames = s.niceNames := by
  induction reqs generalizing s with
  | nil =>
    simp only [insertLabelled, Except.ok.injEq] at h
    simp [h]
  | cons r rest ih =>
    obtain ⟨label, kv⟩ := r
    simp only [insertLabelled] at h
    cases hadd : specKvs.add s kv with
    | error err => simp [hadd] at h
    | ok s1 =>
      simp only [hadd] at h
      obtain ⟨b, -, -, hs1⟩ := specKvs_add_ok hadd
      have := ih h
      rw [hs1] at this
      simpa using this

theorem spec_NewTnsAxisEvent_ok {topic0 topic1 : String} {topic2 topic3 : Option String}
    {keyvalues : List KeyValueEntrie} {s0 : AXEventKeyValueSet}
    (h0 : NewTnsAxisEvent specKvs topic0 topic1 topic2 topic3 keyvalues = .ok s0) :
    s0.entries.map Binding.toKeyValueEntrie
        = insertions OnfivNameSpaceTnsAxis topic0 topic1 topic2 topic3 keyvalues
      ∧ s0.sources = [] ∧ s0.datas = [] ∧ s0.userDefined = [] ∧ s0.niceNames = [] := by
  rw [NewTnsAxisEvent_eq_insertLabelled] at h0
  have he := specKvs_insertLabelled_entries h0
  rw [labelled_map_snd] at he
  have hf := specKvs_insertLabelled_frame h0
  exact ⟨by simpa [specKvs, AXEventKeyValueSet.empty] using he,
    by simpa [specKvs, AXEventKeyValueSet.empty] using hf⟩

/-- The outcome of `NewCameraApplicationPlatformEvent` on the key-value set of section 4.1, once
its `NewTnsAxisEvent` has returned the set `s0`: either every marker and nice name refers to an
entry of `s0` and the result is `s0` with these annotations and the nice name of topic2, or some
reference is absent from `s0` and the result is its KeyNotFoundError. -/
theorem spec_platform_event (app_setup : Setup) (event_name : String)
    (event_nice_name : Option String) (kvs_entries : List KeyValueEntrie)
    (source_markers : List AxEventKeyValueSetSourceMark)
    (data_markers : List AxEventKeyValueSetDataMark)
    (user_defined_markers : List AxEventKeyValueSetUserDefineMark)
    (nice_names : List AxEventKeyValueSetNiceNames) (s0 : AXEventKeyValueSet)
    (h0 : NewTnsAxisEvent specKvs "CameraApplicationPlatform" app_setup.AppName
      (some event_name) none kvs_entries = .ok s0) :
    ((∀ m ∈ source_markers, s0.has m.Key m.Namespace = true)
      ∧ (∀ m ∈ data_markers, s0.has m.Key m.Namespace = true)
      ∧ (∀ m ∈ user_defined_markers, s0.has m.Key m.Namespace = true)
      ∧ (∀ n ∈ nice_names, s0.has n.Key n.Namespace = true)
      ∧ NewCameraApplicationPlatformEvent specKvs app_setup event_name event_nice_name
          kvs_entries source_markers data_markers user_defined_markers nice_names
        = .ok { entries := s0.entries, sources := source_markers, datas := data_markers,
                userDefined := user_defined_markers,
                niceNames := nice_names ++ [⟨"topic2", some OnfivNameSpaceTnsAxis, none,
                  some (topicNiceName app_setup event_name event_nice_name)⟩] })
    ∨ ∃ key ns, s0.has key ns = false
      ∧ ((∃ m ∈ source_markers, m.Key = key ∧ m.Namespace = ns)
        ∨ (∃ m ∈ data_markers, m.Key = key ∧ m.Namespace = ns)
        ∨ (∃ m ∈ user_defined_markers, m.Key = key ∧ m.Namespace = ns)
        ∨ (∃ n ∈ nice_names, n.Key = key ∧ n.Namespace = ns))
      ∧ NewCameraApplicationPlatformEvent specKvs app_setup event_name event_nice_name
          kvs_entries source_markers data_markers user_defined_markers nice_names
        = .error (.lib (.KeyNotFoundError key ns)) := by
  obtain ⟨hentries, hsrc, hdat, husr, hnice⟩ := spec_NewTnsAxisEvent_ok h0
  have htopic2 : s0.has "topic2" (some OnfivNameSpaceTnsAxis) = true := by
    rw [has_iff_present, hentries]
    exact ⟨topicEntry "topic2" OnfivNameSpaceTnsAxis event_name,
      by simp [insertions], rfl, rfl⟩
  unfold NewCameraApplicationPlatformEvent
  simp only [h0]
  rcases spec_markSources s0 source_markers with ⟨hall1, hok1⟩ | ⟨m, hm, hbad, herr⟩
  swap
  · exact Or.inr ⟨m.Key, m.Namespace, hbad, Or.inl ⟨m, hm, rfl, rfl⟩, by simp [herr]⟩
  simp only [hok1]
  rcases spec_markDatas { s0 with sources := s0.sources ++ source_markers } data_markers with
    ⟨hall2, hok2⟩ | ⟨m, hm, hbad, herr⟩
  swap
  · exact Or.inr ⟨m.Key, m.Namespace, by rw [← hbad]; exact (has_of_entries_eq rfl _ _).symm,
      Or.inr (Or.inl ⟨m, hm, rfl, rfl⟩), by simp [herr]⟩
  simp only [hok2]
  rcases spec_markUserDefineds
    { s0 with sources := s0.sources ++ source_markers, datas := s0.datas ++ data_markers }
    user_defined_markers with ⟨hall3, hok3⟩ | ⟨m, hm, hbad, herr⟩
  swap
  · exact Or.inr ⟨m.Key, m.Namespace, by rw [← hbad]; exact (has_of_entries_eq rfl _ _).symm,
      Or.inr (Or.inr (Or.inl ⟨m, hm, rfl, rfl⟩)), by simp [herr]⟩
  simp only [hok3]
  rcases spec_addNiceNames
    { s0 with sources := s0.sources ++ source_markers, datas := s0.datas ++ data_markers,
              userDefined := s0.userDefined ++ user_defined_markers }
    (nice_names ++ [⟨"topic2", some OnfivNameSpaceTnsAxis, none,
      some (topicNiceName app_setup event_name event_nice_name)⟩]) with
    ⟨hall4, hok4⟩ | ⟨m, hm, hbad, herr⟩
  swap
  · have hbad0 : s0.has m.Key m.Namespace = false := by
      rw [← hbad]; exact (has_of_entries_eq rfl _ _).symm
    rcases List.mem_append.mp hm with hm | hm
    · exact Or.inr ⟨m.Key, m.Namespace, hbad0,
        Or.inr (Or.inr (Or.inr ⟨m, hm, rfl, rfl⟩)), by simp [herr]⟩
    · rw [List.mem_singleton] at hm
      subst hm
      rw [htopic2] at hbad0
      exact absurd hbad0 (by simp)
  refine Or.inl ⟨hall1, ?_, ?_, ?_, ?_⟩
  · intro m hm
    rw [← hall2 m hm]; exact (has_of_entries_eq rfl _ _).symm
  · intro m hm
    rw [← hall3 m hm]; exact (has_of_entries_eq rfl _ _).symm
  · intro n hn
    rw [← hall4 n (List.mem_append_left _ hn)]; exact (has_of_entries_eq rfl _ _).symm
  · rw [hok4]
    simp [hsrc, hdat, husr, hnice]

/-- Claim C5.  When `NewCameraApplicationPlatformEvent` succeeds (on the key-value set of
section 4.1), the entries of the returned set are those of the set that
`NewTnsAxisEvent("CameraApplicationPlatform", app name, event name, nil, payload)` returns:
topic0 "CameraApplicationPlatform", topic1 the app name, topic2 the event name, all three Strings
under tnsAxis, no topic3, and then the payload entries in the order supplied. -/
theorem platform_event_entries (app_setup : Setup) (event_name : String)
    (event_nice_name : Option String) (kvs_entries : List KeyValueEntrie)
    (source_markers : List AxEventKeyValueSetSourceMark)
    (data_markers : List AxEventKeyValueSetDataMark)
    (user_defined_markers : List AxEventKeyValueSetUserDefineMark)
    (nice_names : List AxEventKeyValueSetNiceNames) (s : AXEventKeyValueSet)
    (h : NewCameraApplicationPlatformEvent specKvs app_setup event_name event_nice_name
      kvs_entries source_markers data_markers user_defined_markers nice_names = .ok s) :
    (∃ s0, NewTnsAxisEvent specKvs "CameraApplicationPlatform" app_setup.AppName
        (some event_name) none kvs_entries = .ok s0 ∧ s.entries = s0.entries)
    ∧ s.entries.map Binding.toKeyValueEntrie
      = [topicEntry "topic0" OnfivNameSpaceTnsAxis "CameraApplicationPlatform",
         topicEntry "topic1" OnfivNameSpaceTnsAxis app_setup.AppName,
         topicEntry "topic2" OnfivNameSpaceTnsAxis event_name] ++ kvs_entries := by
  cases h0 : NewTnsAxisEvent specKvs "CameraApplicationPlatform" app_setup.AppName
      (some event_name) none kvs_entries with
  | error err => simp [NewCameraApplicationPlatformEvent, h0] at h
  | ok s0 =>
    have hs : s.entries = s0.entries := by
      rcases spec_platform_event app_setup event_name event_nice_name kvs_entries
        source_markers data_markers user_defined_markers nice_names s0 h0 with
        ⟨-, -, -, -, hok⟩ | ⟨key, ns, -, -, herr⟩
      · rw [hok] at h
        simp only [Except.ok.injEq] at h
        rw [← h]
      · rw [herr] at h
        simp at h
    refine ⟨⟨s0, rfl, hs⟩, ?_⟩
    rw [hs, (spec_NewTnsAxisEvent_ok h0).1]
    simp [insertions]

/-- An instance of claim C5: app name "MyApp", event name "Active" and no payload give the
entries topic0 "CameraApplicationPlatform", topic1 "MyApp", topic2 "Active", all under
tnsAxis. -/
theorem platform_event_entries_witness :
    NewCameraApplicationPlatformEvent specKvs myApp "Active" none [] [] [] [] []
        = .ok myAppActive
    ∧ (∃ s0, NewTnsAxisEvent specKvs "CameraApplicationPlatform" "MyApp" (some "Active") none []
        = .ok s0 ∧ myAppActive.entries = s0.entries)
    ∧ myAppActive.entries.map Binding.toKeyValueEntrie
      = [topicEntry "topic0" OnfivNameSpaceTnsAxis "CameraApplicationPlatform",
         topicEntry "topic1" OnfivNameSpaceTnsAxis "MyApp",
         topicEntry "topic2" OnfivNameSpaceTnsAxis "Active"] ++ [] :=
  ⟨rfl, platform_event_entries myApp "Active" none [] [] [] [] [] myAppActive rfl⟩

/-- Claim C6.  Let the topics and the payload of `NewCameraApplicationPlatformEvent` insert
successfully (on the key-value set of section 4.1).  If some supplied marker or nice name refers
to a (key, namespace) that is not among the three topic entries and the payload entries, the
builder returns no set and the KeyNotFoundError of such a reference, as the marking operation
raised it.  If every supplied marker and nice name refers to one of these entries, the builder
returns a set with the same entries that carries every supplied marker and nice name, and the
nice name of topic2 after them. -/
theorem platform_event_markers_checked (app_setup : Setup) (event_name : String)
    (event_nice_name : Option String) (kvs_entries : List KeyValueEntrie)
    (source_markers : List AxEventKeyValueSetSourceMark)
    (data_markers : List AxEventKeyValueSetDataMark)
    (user_defined_markers : List AxEventKeyValueSetUserDefineMark)
    (nice_names : List AxEventKeyValueSetNiceNames) (s0 : AXEventKeyValueSet)
    (h0 : NewTnsAxisEvent specKvs "CameraApplicationPlatform" app_setup.AppName
      (some event_name) none kvs_entries = .ok s0) :
    ((∃ key ns, Referenced source_markers data_markers user_defined_markers nice_names key ns
        ∧ ¬ Present (insertions OnfivNameSpaceTnsAxis "CameraApplicationPlatform"
              app_setup.AppName (some event_name) none kvs_entries) key ns) →
      ∃ key ns, Referenced source_markers data_markers user_defined_markers nice_names key ns
        ∧ ¬ Present (insertions OnfivNameSpaceTnsAxis "CameraApplicationPlatform"
              app_setup.AppName (some event_name) none kvs_entries) key ns
        ∧ NewCameraApplicationPlatformEvent specKvs app_setup event_name event_nice_name
            kvs_entries source_markers data_markers user_defined_markers nice_names
          = .error (.lib (.KeyNotFoundError key ns)))
    ∧ ((∀ key ns, Referenced source_markers data_markers user_defined_markers nice_names key ns →
          Present (insertions OnfivNameSpaceTnsAxis "CameraApplicationPlatform"
            app_setup.AppName (some event_name) none kvs_entries) key ns) →
      ∃ s, NewCameraApplicationPlatformEvent specKvs app_setup event_name event_nice_name
            kvs_entries source_markers data_markers user_defined_markers nice_names = .ok s
        ∧ s.entries = s0.entries ∧ s.sources = source_markers ∧ s.datas = data_markers
        ∧ s.userDefined = user_defined_markers
        ∧ s.niceNames = nice_names ++ [⟨"topic2", some OnfivNameSpaceTnsAxis, none,
            some (match event_nice_name with
              | some N => app_setup.FriendlyName ++ ": " ++ N
              | none => app_setup.FriendlyName ++ ": " ++ event_name)⟩]) := by
  have hpres : ∀ key ns, s0.has key ns = true ↔
      Present (insertions OnfivNameSpaceTnsAxis "CameraApplicationPlatform"
        app_setup.AppName (some event_name) none kvs_entries) key ns := by
    intro key ns
    rw [has_iff_present, (spec_NewTnsAxisEvent_ok h0).1]
  rcases spec_platform_event app_setup event_name event_nice_name kvs_entries
    source_markers data_markers user_defined_markers nice_names s0 h0 with
    ⟨h1, h2, h3, h4, hok⟩ | ⟨key, ns, hbad, href, herr⟩
  · constructor
    · rintro ⟨key, ns, href, habs⟩
      exfalso
      apply habs
      rw [← hpres]
      rcases href with ⟨m, hm, rfl, rfl⟩ | ⟨m, hm, rfl, rfl⟩ | ⟨m, hm, rfl, rfl⟩
        | ⟨m, hm, rfl, rfl⟩
      · exact h1 m hm
      · exact h2 m hm
      · exact h3 m hm
      · exact h4 m hm
    · intro _
      refine ⟨_, hok, rfl, rfl, rfl, rfl, ?_⟩
      cases event_nice_name <;> rfl
  · have habs : ¬ Present (insertions OnfivNameSpaceTnsAxis "CameraApplicationPlatform"
        app_setup.AppName (some event_name) none kvs_entries) key ns := by
      rw [← hpres, hbad]
      simp
    constructor
    · intro _
      exact ⟨key, ns, href, habs, herr⟩
    · intro hall
      exact absurd (hall key ns href) habs

/-- Two instances of claim C6, with the payload port = 3 and a source marker on port.  A data
marker on the absent key "state" makes the builder return the KeyNotFoundError for "state"; a
data marker on port makes it succeed with both markers and the nice name of topic2 applied. -/
theorem platform_event_markers_checked_witness :
    NewTnsAxisEvent specKvs "CameraApplicationPlatform" "MyApp" (some "Active") none [portEntry]
        = .ok myAppActivePort
    ∧ NewCameraApplicationPlatformEvent specKvs myApp "Active" none [portEntry]
          [⟨"port", none⟩] [⟨"state", none⟩] [] []
        = .error (.lib (.KeyNotFoundError "state" none))
    ∧ (∃ key ns, Referenced [⟨"port", none⟩] [⟨"state", none⟩] [] [] key ns
        ∧ ¬ Present (insertions OnfivNameSpaceTnsAxis "CameraApplicationPlatform"
              myApp.AppName (some "Active") none [portEntry]) key ns
        ∧ NewCameraApplicationPlatformEvent specKvs myApp "Active" none [portEntry]
            [⟨"port", none⟩] [⟨"state", none⟩] [] []
          = .error (.lib (.KeyNotFoundError key ns)))
    ∧ ∃ s, NewCameraApplicationPlatformEvent specKvs myApp "Active" none [portEntry]
            [⟨"port", none⟩] [⟨"port", none⟩] [] [] = .ok s
        ∧ s.entries = myAppActivePort.entries ∧ s.sources = [⟨"port", none⟩]
        ∧ s.datas = [⟨"port", none⟩] ∧ s.userDefined = []
        ∧ s.niceNames = [] ++ [⟨"topic2", some OnfivNameSpaceTnsAxis, none,
            some "My Application: Active"⟩] :=
  ⟨rfl, rfl,
   (platform_event_markers_checked myApp "Active" none [portEntry] [⟨"port", none⟩]
      [⟨"state", none⟩] [] [] myAppActivePort rfl).1
     ⟨"state", none, Or.inr (Or.inl ⟨⟨"state", none⟩, by simp, rfl, rfl⟩),
      by simp [Present, insertions, topicEntry, portEntry]⟩,
   (platform_event_markers_checked myApp "Active" none [portEntry] [⟨"port", none⟩]
      [⟨"port", none⟩] [] [] myAppActivePort rfl).2
     (by
       intro key ns href
       have hk : key = "port" ∧ ns = none := by
         rcases href with ⟨m, hm, h1, h2⟩ | ⟨m, hm, h1, h2⟩ | ⟨m, hm, h1, h2⟩
           | ⟨m, hm, h1, h2⟩
         · simp only [List.mem_singleton] at hm
           subst hm
           exact ⟨h1.symm, h2.symm⟩
         · simp only [List.mem_singleton] at hm
           subst hm
           exact ⟨h1.symm, h2.symm⟩
         · simp at hm
         · simp at hm
       obtain ⟨rfl, rfl⟩ := hk
       exact ⟨portEntry, by simp [insertions], rfl, rfl⟩)⟩

/-! ## The loop of the marshaller, field by field -/

theorem unmarshalFields_cons {σ ε : Type} (ops : KvsOps σ ε) (e : Event σ) (f : StructField)
    (rest : List StructField) :
    unmarshalFields ToLower ops e (f :: rest)
      = match lookupOf ToLower f with
        | none => (unmarshalFields ToLower ops e rest).after f []
        | some l =>
          match ops.get e.Kvs l.getter l.key l.ns with
          | .ok v => (unmarshalFields ToLower ops e rest).after { f with value := v } [l]
          | .error err =>
            { target := f :: rest, err := some (getError ops l.getter.what l.key err),
              lookups := [l] } := by
  obtain ⟨name, tag, canSet, kind, value⟩ := f
  cases canSet with
  | false => simp [unmarshalFields, lookupOf]
  | true =>
    cases kind <;> simp only [unmarshalFields, lookupOf, dispatch, lookupKey, KvsOps.get,
      Getter.what, Bool.not_true, Bool.false_eq_true, if_false, if_true, Option.map_some',
      Option.map_none']
    · cases ops.GetBoolean e.Kvs (if tag = "" then ToLower name else tag) none <;> rfl
    · cases ops.GetInteger e.Kvs (if tag = "" then ToLower name else tag) none <;> rfl
    · cases ops.GetDouble e.Kvs (if tag = "" then ToLower name else tag) none <;> rfl
    · cases ops.GetString e.Kvs (if tag = "" then ToLower name else tag) none <;> rfl

theorem unmarshalFields_ok {σ ε : Type} (ops : KvsOps σ ε) (e : Event σ)
    (fields : List StructField) (h : ∀ f ∈ fields, ReadsOk ToLower ops e f) :
    unmarshalFields ToLower ops e fields
      = { target := fields.map (readField ToLower ops e), err := none,
          lookups := fields.filterMap (lookupOf ToLower) } := by
  induction fields with
  | nil => rfl
  | cons f rest ih =>
    have hrest := ih (fun g hg => h g (List.mem_cons_of_mem _ hg))
    have hf := h f (List.mem_cons_self _ _)
    rw [unmarshalFields_cons, hrest]
    cases hl : lookupOf ToLower f with
    | none => simp [Unmarshalled.after, readField, hl]
    | some l =>
      obtain ⟨v, hv⟩ := hf l hl
      simp [Unmarshalled.after, readField, hl, hv]

theorem unmarshalFields_first_failure {σ ε : Type} (ops : KvsOps σ ε) (e : Event σ)
    (pre : List StructField) (f : StructField) (post : List StructField) (l : Lookup) (err : ε)
    (hpre : ∀ g ∈ pre, ReadsOk ToLower ops e g) (hl : lookupOf ToLower f = some l)
    (hfail : ops.get e.Kvs l.getter l.key l.ns = .error err) :
    unmarshalFields ToLower ops e (pre ++ f :: post)
      = { target := pre.map (readField ToLower ops e) ++ f :: post,
          err := some (getError ops l.getter.what l.key err),
          lookups := pre.filterMap (lookupOf ToLower) ++ [l] } := by
  induction pre with
  | nil =>
    simp only [List.nil_append, List.map_nil, List.filterMap_nil]
    rw [unmarshalFields_cons]
    simp [hl, hfail]
  | cons g rest ih =>
    have hrest := ih (fun x hx => hpre x (List.mem_cons_of_mem _ hx))
    have hg := hpre g (List.mem_cons_self _ _)
    rw [List.cons_append, unmarshalFields_cons, hrest]
    cases hlg : lookupOf ToLower g with
    | none => simp [Unmarshalled.after, readField, hlg]
    | some lg =>
      obtain ⟨v, hv⟩ := hg lg hlg
      simp [Unmarshalled.after, readField, hlg, hv]

theorem reads_ok_or_first_failure {σ ε : Type} (ops : KvsOps σ ε) (e : Event σ)
    (fields : List StructField) :
    (∀ f ∈ fields, ReadsOk ToLower ops e f)
    ∨ ∃ pre f post l err, fields = pre ++ f :: post ∧ (∀ g ∈ pre, ReadsOk ToLower ops e g)
        ∧ lookupOf ToLower f = some l ∧ ops.get e.Kvs l.getter l.key l.ns = .error err := by
  induction fields with
  | nil => exact Or.inl (by simp)
  | cons f rest ih =>
    have hf : ReadsOk ToLower ops e f ∨ ∃ l err, lookupOf ToLower f = some l
        ∧ ops.get e.Kvs l.getter l.key l.ns = .error err := by
      cases hl : lookupOf ToLower f with
      | none => exact Or.inl (fun l h => by simp [hl] at h)
      | some l =>
        cases hg : ops.get e.Kvs l.getter l.key l.ns with
        | ok v =>
          refine Or.inl (fun l2 h => ?_)
          rw [hl] at h
          cases h
          exact ⟨v, hg⟩
        | error err => exact Or.inr ⟨l, err, rfl, hg⟩
    rcases hf with hf | ⟨l, err, hl, hfail⟩
    · rcases ih with hall | ⟨pre, g, post, l, err, hsplit, hpre, hl, hfail⟩
      · refine Or.inl (fun x hx => ?_)
        rcases List.mem_cons.mp hx with rfl | hx
        · exact hf
        · exact hall x hx
      · refine Or.inr ⟨f :: pre, g, post, l, err, by simp [hsplit], ?_, hl, hfail⟩
        intro x hx
        rcases List.mem_cons.mp hx with rfl | hx
        · exact hf
        · exact hpre x hx
    · exact Or.inr ⟨[], f, rest, l, err, rfl, by simp, hl, hfail⟩

/-! ## The getters of the key-value set of section 4.1 -/

theorem lookupOf_eq_some {f : StructField} {l : Lookup} (h : lookupOf ToLower f = some l) :
    f.CanSet = true ∧ dispatch f.Kind = some l.getter
      ∧ l.key = (if f.eventKey = "" then ToLower f.Name else f.eventKey) ∧ l.ns = none := by
  unfold lookupOf at h
  cases hc : f.CanSet with
  | false => simp [hc] at h
  | true =>
    simp only [hc, if_true] at h
    cases hd : dispatch f.Kind with
    | none => simp [hd] at h
    | some g =>
      simp only [hd, Option.map_some', Option.some.injEq] at h
      subst h
      exact ⟨rfl, rfl, rfl, rfl⟩

theorem lookupOf_of_dispatch {f : StructField} {g : Getter} (hc : f.CanSet = true)
    (hd : dispatch f.Kind = some g) :
    lookupOf ToLower f
      = some ⟨g, if f.eventKey = "" then ToLower f.Name else f.eventKey, none⟩ := by
  simp [lookupOf, hc, hd]

theorem spec_get_ok {kvs : AXEventKeyValueSet} {g : Getter} {key : String} {ns : Option String}
    {b : Binding} (hfind : kvs.find? key ns = some b) (htag : b.value.tag = g.tag) :
    specKvs.get kvs g key ns = .ok b.value.payload := by
  obtain ⟨k, n, v⟩ := b
  cases g <;> cases v <;>
    simp_all [KvsOps.get, specKvs, AXEventKeyValueSet.GetInteger, AXEventKeyValueSet.GetDouble,
      AXEventKeyValueSet.GetString, AXEventKeyValueSet.GetBoolean, TypedValue.tag, Getter.tag,
      TypedValue.payload, Except.map]

theorem spec_get_absent {kvs : AXEventKeyValueSet} (g : Getter) {key : String}
    {ns : Option String} (hfind : kvs.find? key ns = none) :
    specKvs.get kvs g key ns = .error (.KeyNotFoundError key ns) := by
  cases g <;>
    simp [KvsOps.get, specKvs, AXEventKeyValueSet.GetInteger, AXEventKeyValueSet.GetDouble,
      AXEventKeyValueSet.GetString, AXEventKeyValueSet.GetBoolean, hfind, Except.map]

theorem spec_get_mismatch {kvs : AXEventKeyValueSet} {g : Getter} {key : String}
    {ns : Option String} {b : Binding} (hfind : kvs.find? key ns = some b)
    (htag : b.value.tag ≠ g.tag) :
    specKvs.get kvs g key ns = .error (.TypeMismatchError key ns g.tag) := by
  obtain ⟨k, n, v⟩ := b
  cases g <;> cases v <;>
    simp_all [KvsOps.get, specKvs, AXEventKeyValueSet.GetInteger, AXEventKeyValueSet.GetDouble,
      AXEventKeyValueSet.GetString, AXEventKeyValueSet.GetBoolean, TypedValue.tag, Getter.tag,
      Except.map]

theorem spec_reads_ok {e : Event AXEventKeyValueSet} {f : StructField}
    (h : ∀ g, f.CanSet = true → dispatch f.Kind = some g →
      ∃ b, e.Kvs.find? (if f.eventKey = "" then ToLower f.Name else f.eventKey) none = some b
        ∧ b.value.tag = g.tag) :
    ReadsOk ToLower specKvs e f
      ∧ readField ToLower specKvs e f
        = if f.CanSet = true ∧ (dispatch f.Kind).isSome = true then stored ToLower e.Kvs f
          else f := by
  constructor
  · intro l hl
    obtain ⟨hc, hd, hk, hn⟩ := lookupOf_eq_some hl
    obtain ⟨b, hfind, htag⟩ := h l.getter hc hd
    rw [hk, hn]
    exact ⟨_, spec_get_ok hfind htag⟩
  · cases hc : f.CanSet with
    | false => simp [readField, lookupOf, hc]
    | true =>
      cases hd : dispatch f.Kind with
      | none => simp [readField, lookupOf, hc, hd]
      | some g =>
        obtain ⟨b, hfind, htag⟩ := h g hc hd
        simp [readField, lookupOf, hc, hd, stored, hfind, spec_get_ok hfind htag]

theorem UnmarshalEvent_pointerToStruct {σ ε : Type} (ops : KvsOps σ ε) (e : Event σ)
    (fields : List StructField) :
    UnmarshalEvent ToLower ops e (.pointerToStruct fields)
      = { target := .pointerToStruct (unmarshalFields ToLower ops e fields).target,
          err := (unmarshalFields ToLower ops e fields).err,
          lookups := (unmarshalFields ToLower ops e fields).lookups } := by
  simp [UnmarshalEvent, Target.Kind, Target.ElemKind, Target.fields, Target.withFields]

/-- Claim C7.  Let every settable field of the target record be of kind int, float64, string or
bool and let the set of the event (a key-value set of section 4.1) hold, under the nil namespace
and at the lookup key of the field, an entry of the matching kind (Integer, Double, String,
Boolean).  Then `UnmarshalEvent` returns no error, and afterwards every settable field holds the
value stored at its lookup key, which is the `eventKey` label when that is not empty and the
lower-cased field name otherwise; the other fields are unchanged.  Lower-casing is by any
function `ToLower` in the place of `strings.ToLower`. -/
theorem UnmarshalEvent_populates (ToLower : String → String)
    (e : Event AXEventKeyValueSet) (fields : List StructField)
    (h : ∀ f ∈ fields, f.CanSet = true →
      ∃ b, e.Kvs.find? (if f.eventKey = "" then ToLower f.Name else f.eventKey) none = some b
        ∧ ((f.Kind = .Int ∧ b.value.tag = .AXValueTypeInt)
          ∨ (f.Kind = .Float64 ∧ b.value.tag = .AXValueTypeDouble)
          ∨ (f.Kind = .String ∧ b.value.tag = .AXValueTypeString)
          ∨ (f.Kind = .Bool ∧ b.value.tag = .AXValueTypeBool))) :
    (UnmarshalEvent ToLower specKvs e (.pointerToStruct fields)).err = none
    ∧ (UnmarshalEvent ToLower specKvs e (.pointerToStruct fields)).target
      = .pointerToStruct
          (fields.map (fun f => if f.CanSet then stored ToLower e.Kvs f else f)) := by
  have hkey : ∀ f ∈ fields, (f.CanSet = true → (dispatch f.Kind).isSome = true)
      ∧ ∀ g, f.CanSet = true → dispatch f.Kind = some g →
        ∃ b, e.Kvs.find? (if f.eventKey = "" then ToLower f.Name else f.eventKey) none = some b
          ∧ b.value.tag = g.tag := by
    intro f hf
    constructor
    · intro hc
      obtain ⟨b, -, hk | hk | hk | hk⟩ := h f hf hc <;> simp [dispatch, hk.1]
    · intro g hc hd
      obtain ⟨b, hfind, hk | hk | hk | hk⟩ := h f hf hc <;>
        · refine ⟨b, hfind, ?_⟩
          rw [hk.1] at hd
          simp only [dispatch, Option.some.injEq] at hd
          subst hd
          exact hk.2
  rw [UnmarshalEvent_pointerToStruct,
    unmarshalFields_ok specKvs e fields (fun f hf => (spec_reads_ok (hkey f hf).2).1)]
  refine ⟨rfl, ?_⟩
  simp only [Target.pointerToStruct.injEq]
  apply List.map_congr_left
  intro f hf
  rw [(spec_reads_ok (hkey f hf).2).2]
  cases hc : f.CanSet with
  | false => simp
  | true => simp [(hkey f hf).1 hc]

/-- The scenario of claim C7: the event with age = 42 (integer) and name = "Alice" (string),
unmarshalled into a record with the int field Age, labelled "age", and the string field Name,
gives Age = 42 and Name = "Alice". -/
theorem UnmarshalEvent_populates_witness :
    (UnmarshalEvent asciiToLower specKvs aliceEvent (.pointerToStruct [ageField, nameField])).err = none
    ∧ (UnmarshalEvent asciiToLower specKvs aliceEvent (.pointerToStruct [ageField, nameField])).target
      = .pointerToStruct
          [{ Name := "Age", eventKey := "age", CanSet := true, Kind := .Int, value := .int 42 },
           { Name := "Name", eventKey := "", CanSet := true, Kind := .String,
             value := .string "Alice" }] :=
  UnmarshalEvent_populates asciiToLower aliceEvent [ageField, nameField] (by
    intro f hf _
    simp only [List.mem_cons, List.mem_singleton, List.not_mem_nil, or_false] at hf
    rcases hf with rfl | rfl
    · exact ⟨⟨"age", none, .Integer 42⟩, rfl, Or.inl ⟨rfl, rfl⟩⟩
    · exact ⟨⟨"name", none, .String "Alice"⟩, rfl, Or.inr (Or.inr (Or.inl ⟨rfl, rfl⟩))⟩)

theorem get_with_error_text (text : KvsError → String) (kvs : AXEventKeyValueSet) (g : Getter)
    (key : String) (ns : Option String) :
    ({ specKvs with Error := text } : KvsOps AXEventKeyValueSet KvsError).get kvs g key ns
      = specKvs.get kvs g key ns := by
  cases g <;> rfl

theorem readField_congr {σ ε : Type} (ops1 ops2 : KvsOps σ ε) (e : Event σ) (f : StructField)
    (h : ∀ g key ns, ops1.get e.Kvs g key ns = ops2.get e.Kvs g key ns) :
    readField ToLower ops1 e f = readField ToLower ops2 e f
      ∧ (ReadsOk ToLower ops2 e f → ReadsOk ToLower ops1 e f) := by
  constructor
  · unfold readField
    cases lookupOf ToLower f with
    | none => rfl
    | some l => simp only [h]
  · intro hr l hl
    rw [h]
    exact hr l hl

/-- Claim C8 fails as stated: the error of a failed lookup is not wrapped.  Without the entry for
age the lookup GetInteger("age", nil) returns the KeyNotFoundError, but the error that
`UnmarshalEvent` returns has nothing to unwrap (it is built with the verb `%v`): it is not the
KeyNotFoundError wrapped with a message, whatever the wording of the messages of the set. -/
theorem UnmarshalEvent_lookup_error_not_wrapped :
    specKvs.GetInteger nameOnlyEvent.Kvs "age" none = .error (.KeyNotFoundError "age" none)
    ∧ ∀ text : KvsError → String, ∃ err,
        (UnmarshalEvent asciiToLower { specKvs with Error := text } nameOnlyEvent
            (.pointerToStruct [ageField, nameField])).err = some err
        ∧ err.Unwrap = none
        ∧ ∀ msg, err ≠ .wrapError msg (.KeyNotFoundError "age" none) :=
  ⟨rfl, fun _ => ⟨_, rfl, rfl, fun _ h => nomatch h⟩⟩

/-- Claim C8, amended.  Let field `f` be the first field of the record whose lookup fails: every
field before it that is read has a matching entry in the set of the event (a key-value set of
section 4.1, with any wording `text` of its error messages, and with any function `ToLower` in
the place of `strings.ToLower`), and `f` is settable, of a kind with getter `g`, and the set has,
under the nil namespace, no entry at the lookup key of `f` or one of another kind.  Then the
lookup returns the KeyNotFoundError (entry absent) or the TypeMismatchError (other kind), and
`UnmarshalEvent` returns at once (the failing getter call is the last call it makes) a plain
error, with nothing to unwrap, whose message is "error getting <kind> for key <lookup key>: "
followed by the message of that lookup error; `f` and every field after it keep their values, and
the fields before it that are read hold the values stored in the event. -/
theorem UnmarshalEvent_first_lookup_failure (ToLower : String → String)
    (text : KvsError → String)
    (e : Event AXEventKeyValueSet)
    (pre : List StructField) (f : StructField) (post : List StructField) (g : Getter)
    (hpre : ∀ x ∈ pre, ∀ gx, x.CanSet = true → dispatch x.Kind = some gx →
      ∃ b, e.Kvs.find? (if x.eventKey = "" then ToLower x.Name else x.eventKey) none = some b
        ∧ b.value.tag = gx.tag)
    (hset : f.CanSet = true) (hkind : dispatch f.Kind = some g)
    (hfail : ∀ b, e.Kvs.find? (if f.eventKey = "" then ToLower f.Name else f.eventKey) none
      = some b → b.value.tag ≠ g.tag) :
    ∃ lookupErr : KvsError,
      ((e.Kvs.find? (if f.eventKey = "" then ToLower f.Name else f.eventKey) none = none
          ∧ lookupErr = .KeyNotFoundError
              (if f.eventKey = "" then ToLower f.Name else f.eventKey) none)
        ∨ ((e.Kvs.find? (if f.eventKey = "" then ToLower f.Name else f.eventKey) none).isSome
          ∧ lookupErr = .TypeMismatchError
              (if f.eventKey = "" then ToLower f.Name else f.eventKey) none g.tag))
      ∧ specKvs.get e.Kvs g (if f.eventKey = "" then ToLower f.Name else f.eventKey) none
        = .error lookupErr
      ∧ (UnmarshalEvent ToLower { specKvs with Error := text } e
            (.pointerToStruct (pre ++ f :: post))).err
        = some (.errorString ("error getting " ++ g.what ++ " for key "
            ++ (if f.eventKey = "" then ToLower f.Name else f.eventKey) ++ ": "
            ++ text lookupErr))
      ∧ (UnmarshalEvent ToLower { specKvs with Error := text } e
            (.pointerToStruct (pre ++ f :: post))).target
        = .pointerToStruct
            (pre.map (fun x =>
                if x.CanSet = true ∧ (dispatch x.Kind).isSome = true
                then stored ToLower e.Kvs x else x)
              ++ f :: post)
      ∧ (UnmarshalEvent ToLower { specKvs with Error := text } e
            (.pointerToStruct (pre ++ f :: post))).lookups.getLast?
        = some ⟨g, if f.eventKey = "" then ToLower f.Name else f.eventKey, none⟩ := by
  have hl := @lookupOf_of_dispatch ToLower f g hset hkind
  have hcongr := fun x => @readField_congr ToLower _ _
    ({ specKvs with Error := text } : KvsOps AXEventKeyValueSet KvsError) specKvs e x
    (fun g key ns => get_with_error_text text e.Kvs g key ns)
  have hmap : pre.map (readField ToLower { specKvs with Error := text } e)
      = pre.map (fun x =>
          if x.CanSet = true ∧ (dispatch x.Kind).isSome = true
          then stored ToLower e.Kvs x else x) :=
    List.map_congr_left (fun x hx => by
      rw [(hcongr x).1]
      exact (spec_reads_ok (hpre x hx)).2)
  have hstep : ∀ lookupErr : KvsError,
      specKvs.get e.Kvs g (if f.eventKey = "" then ToLower f.Name else f.eventKey) none
        = .error lookupErr →
      specKvs.get e.Kvs g (if f.eventKey = "" then ToLower f.Name else f.eventKey) none
        = .error lookupErr
      ∧ (UnmarshalEvent ToLower { specKvs with Error := text } e
            (.pointerToStruct (pre ++ f :: post))).err
        = some (.errorString ("error getting " ++ g.what ++ " for key "
            ++ (if f.eventKey = "" then ToLower f.Name else f.eventKey) ++ ": "
            ++ text lookupErr))
      ∧ (UnmarshalEvent ToLower { specKvs with Error := text } e
            (.pointerToStruct (pre ++ f :: post))).target
        = .pointerToStruct
            (pre.map (fun x =>
                if x.CanSet = true ∧ (dispatch x.Kind).isSome = true
                then stored ToLower e.Kvs x else x)
              ++ f :: post)
      ∧ (UnmarshalEvent ToLower { specKvs with Error := text } e
            (.pointerToStruct (pre ++ f :: post))).lookups.getLast?
        = some ⟨g, if f.eventKey = "" then ToLower f.Name else f.eventKey, none⟩ := by
    intro lookupErr hget
    refine ⟨hget, ?_⟩
    rw [UnmarshalEvent_pointerToStruct,
      unmarshalFields_first_failure { specKvs with Error := text } e pre f post _ lookupErr
        (fun x hx => (hcongr x).2 (spec_reads_ok (hpre x hx)).1) hl
        (by rw [get_with_error_text]; exact hget), hmap]
    exact ⟨rfl, rfl, by simp⟩
  cases hfind : e.Kvs.find? (if f.eventKey = "" then ToLower f.Name else f.eventKey) none with
  | none => exact ⟨_, Or.inl ⟨rfl, rfl⟩, hstep _ (spec_get_absent g hfind)⟩
  | some b =>
    exact ⟨_, Or.inr ⟨rfl, rfl⟩, hstep _ (spec_get_mismatch hfind (hfail b hfind))⟩

/-- The scenario of amended claim C8: without the entry for age, unmarshalling into the record
with the fields Age (labelled "age") and Name fails at Age with a plain error whose message names
the key "age" and ends with the message of the KeyNotFoundError, and both fields keep their
values. -/
theorem UnmarshalEvent_first_lookup_failure_witness :
    (UnmarshalEvent asciiToLower { specKvs with Error := KvsError.Error } nameOnlyEvent
        (.pointerToStruct [ageField, nameField])).err
        = some (.errorString ("error getting integer for key age: "
            ++ KvsError.Error (.KeyNotFoundError "age" none)))
    ∧ ∃ lookupErr : KvsError,
      ((nameOnlyEvent.Kvs.find? "age" none = none ∧ lookupErr = .KeyNotFoundError "age" none)
        ∨ ((nameOnlyEvent.Kvs.find? "age" none).isSome
          ∧ lookupErr = .TypeMismatchError "age" none .AXValueTypeInt))
      ∧ specKvs.get nameOnlyEvent.Kvs .GetInteger "age" none = .error lookupErr
      ∧ (UnmarshalEvent asciiToLower { specKvs with Error := KvsError.Error } nameOnlyEvent
            (.pointerToStruct ([] ++ ageField :: [nameField]))).err
        = some (.errorString ("error getting " ++ "integer" ++ " for key " ++ "age" ++ ": "
            ++ KvsError.Error lookupErr))
      ∧ (UnmarshalEvent asciiToLower { specKvs with Error := KvsError.Error } nameOnlyEvent
            (.pointerToStruct ([] ++ ageField :: [nameField]))).target
        = .pointerToStruct ([] ++ ageField :: [nameField])
      ∧ (UnmarshalEvent asciiToLower { specKvs with Error := KvsError.Error } nameOnlyEvent
            (.pointerToStruct ([] ++ ageField :: [nameField]))).lookups.getLast?
        = some ⟨.GetInteger, "age", none⟩ :=
  ⟨rfl, UnmarshalEvent_first_lookup_failure asciiToLower KvsError.Error nameOnlyEvent []
    ageField [nameField] .GetInteger (by simp) rfl rfl
    (by
      intro b hb
      have hnone : nameOnlyEvent.Kvs.find? "age" none = none := rfl
      have hsome : nameOnlyEvent.Kvs.find? "age" none = some b := hb
      rw [hnone] at hsome
      cases hsome)⟩

/-! ## The target check and the dispatch of the marshaller -/

theorem getError_ne_invalid_target {σ ε : Type} (ops : KvsOps σ ε) (what key : String)
    (err : ε) :
    getError ops what key err ≠ .errorString "value must be a pointer to a struct" := by
  intro h
  simp only [getError, GoError.errorString.injEq] at h
  have hd := congrArg (fun s : String => s.data.head?) h
  simp [String.data_append] at hd

/-- Claim C9.  For every event and every key-value set: when the target is not a pointer, is a
nil pointer, or points to a value that is not a struct, `UnmarshalEvent` returns the error
"value must be a pointer to a struct", makes no getter call on the set of the event and leaves
the target as it is; when the target is a pointer to a struct, it never returns that error.
This holds with any function `ToLower` in the place of `strings.ToLower`. -/
theorem UnmarshalEvent_invalid_target (ToLower : String → String) {σ ε : Type}
    (ops : KvsOps σ ε) (e : Event σ) :
    (∀ k, UnmarshalEvent ToLower ops e (.notPointer k)
        = { target := .notPointer k,
            err := some (.errorString "value must be a pointer to a struct"), lookups := [] })
    ∧ UnmarshalEvent ToLower ops e .nilPointer
        = { target := .nilPointer,
            err := some (.errorString "value must be a pointer to a struct"), lookups := [] }
    ∧ (∀ k, k ≠ Kind.Struct → UnmarshalEvent ToLower ops e (.pointerTo k)
        = { target := .pointerTo k,
            err := some (.errorString "value must be a pointer to a struct"), lookups := [] })
    ∧ ∀ fields, (UnmarshalEvent ToLower ops e (.pointerToStruct fields)).err
        ≠ some (.errorString "value must be a pointer to a struct") := by
  refine ⟨?_, ?_, ?_, ?_⟩
  · intro k
    cases k <;> simp [UnmarshalEvent, Target.Kind, Target.ElemKind]
  · simp [UnmarshalEvent, Target.Kind, Target.ElemKind]
  · intro k hk
    simp [UnmarshalEvent, Target.Kind, Target.ElemKind, hk]
  · intro fields
    rw [UnmarshalEvent_pointerToStruct]
    rcases reads_ok_or_first_failure ops e fields with hall
      | ⟨pre, f, post, l, err, hsplit, hpre, hl, hfail⟩
    · rw [unmarshalFields_ok ops e fields hall]
      simp
    · rw [hsplit, unmarshalFields_first_failure ops e pre f post l err hpre hl hfail]
      simp only [ne_eq, Option.some.injEq]
      exact getError_ne_invalid_target ops _ _ err

/-- An instance of claim C9: a pointer to an int is rejected without any getter call. -/
theorem UnmarshalEvent_invalid_target_witness :
    Kind.Int ≠ Kind.Struct
    ∧ UnmarshalEvent asciiToLower specKvs aliceEvent (.pointerTo .Int)
        = { target := .pointerTo .Int,
            err := some (.errorString "value must be a pointer to a struct"), lookups := [] } :=
  ⟨by decide, (UnmarshalEvent_invalid_target asciiToLower specKvs aliceEvent).2.2.1 .Int (by decide)⟩

/-- Claim C10 fails as stated: a settable field of kind int32 is not read via `GetInteger`.  With
count = 5 (integer) in the event, the int field Count is read by the call GetInteger("count", nil)
and set to 5, whereas for the int32 field Count no getter is called, no error is returned and the
field keeps its value 7; so it is for a float32 field and `GetDouble`. -/
theorem UnmarshalEvent_skips_int32 :
    UnmarshalEvent asciiToLower specKvs countEvent (.pointerToStruct [countField .Int])
        = { target := .pointerToStruct [{ countField .Int with value := .int 5 }], err := none,
            lookups := [⟨.GetInteger, "count", none⟩] }
    ∧ UnmarshalEvent asciiToLower specKvs countEvent (.pointerToStruct [countField .Int32])
        = { target := .pointerToStruct [countField .Int32], err := none, lookups := [] }
    ∧ UnmarshalEvent asciiToLower specKvs countEvent (.pointerToStruct [countField .Float32])
        = { target := .pointerToStruct [countField .Float32], err := none, lookups := [] } :=
  ⟨rfl, rfl, rfl⟩

/-- Claim C10, amended.  With any function `ToLower` in the place of `strings.ToLower` and any
key-value set: `UnmarshalEvent` dispatches on the kind of each settable field it reaches.  A
field of kind `Int` is read by `GetInteger`, of kind `Float64` by `GetDouble`, of kind `String`
by `GetString`, of kind `Bool` by `GetBoolean`, each at the lookup key of the field under the nil
namespace; a settable field of any other kind (the other integer and floating-point kinds
included) gives rise to no getter call.  A field without a getter call keeps its value, a field
whose getter succeeds holds what the getter returned.  The getter calls of a run without error
are those of all the fields, in order, and every field is as just said; the getter calls of a run
that fails are those of the fields up to and including the first whose getter fails, the fields
before that one are as just said, and that field and the fields after it keep their values. -/
theorem UnmarshalEvent_dispatch_by_kind (ToLower : String → String) {σ ε : Type}
    (ops : KvsOps σ ε) (e : Event σ)
    (fields : List StructField) :
    (∀ f : StructField, f.CanSet = true →
      (f.Kind = .Int → lookupOf ToLower f
        = some ⟨.GetInteger, if f.eventKey = "" then ToLower f.Name else f.eventKey, none⟩)
      ∧ (f.Kind = .Float64 → lookupOf ToLower f
        = some ⟨.GetDouble, if f.eventKey = "" then ToLower f.Name else f.eventKey, none⟩)
      ∧ (f.Kind = .String → lookupOf ToLower f
        = some ⟨.GetString, if f.eventKey = "" then ToLower f.Name else f.eventKey, none⟩)
      ∧ (f.Kind = .Bool → lookupOf ToLower f
        = some ⟨.GetBoolean, if f.eventKey = "" then ToLower f.Name else f.eventKey, none⟩)
      ∧ (f.Kind ≠ .Int → f.Kind ≠ .Float64 → f.Kind ≠ .String → f.Kind ≠ .Bool →
          lookupOf ToLower f = none))
    ∧ (∀ f : StructField, lookupOf ToLower f = none → readField ToLower ops e f = f)
    ∧ (∀ (f : StructField) (l : Lookup) (v : Value), lookupOf ToLower f = some l →
        ops.get e.Kvs l.getter l.key l.ns = .ok v →
        readField ToLower ops e f = { f with value := v })
    ∧ ((UnmarshalEvent ToLower ops e (.pointerToStruct fields)).err = none →
        (UnmarshalEvent ToLower ops e (.pointerToStruct fields)).lookups
          = fields.filterMap (lookupOf ToLower)
        ∧ (UnmarshalEvent ToLower ops e (.pointerToStruct fields)).target
          = .pointerToStruct (fields.map (readField ToLower ops e)))
    ∧ (∀ err, (UnmarshalEvent ToLower ops e (.pointerToStruct fields)).err = some err →
        ∃ pre f post l lookupErr, fields = pre ++ f :: post ∧ lookupOf ToLower f = some l
          ∧ ops.get e.Kvs l.getter l.key l.ns = .error lookupErr
          ∧ (UnmarshalEvent ToLower ops e (.pointerToStruct fields)).lookups
            = pre.filterMap (lookupOf ToLower) ++ [l]
          ∧ (UnmarshalEvent ToLower ops e (.pointerToStruct fields)).target
            = .pointerToStruct (pre.map (readField ToLower ops e) ++ f :: post)) := by
  refine ⟨?_, ?_, ?_, ?_, ?_⟩
  · intro f hc
    refine ⟨?_, ?_, ?_, ?_, ?_⟩
    · intro hk; simp [lookupOf, hc, hk, dispatch]
    · intro hk; simp [lookupOf, hc, hk, dispatch]
    · intro hk; simp [lookupOf, hc, hk, dispatch]
    · intro hk; simp [lookupOf, hc, hk, dispatch]
    · intro h1 h2 h3 h4
      cases hk : f.Kind <;> simp_all [lookupOf, dispatch]
  · intro f hl
    simp [readField, hl]
  · intro f l v hl hv
    simp [readField, hl, hv]
  · intro herr
    rw [UnmarshalEvent_pointerToStruct] at herr ⊢
    rcases reads_ok_or_first_failure ops e fields with hall
      | ⟨pre, f, post, l, lookupErr, hsplit, hpre, hl, hfail⟩
    · rw [unmarshalFields_ok ops e fields hall]
      exact ⟨rfl, rfl⟩
    · rw [hsplit, unmarshalFields_first_failure ops e pre f post l lookupErr hpre hl hfail]
        at herr
      simp at herr
  · intro err herr
    rw [UnmarshalEvent_pointerToStruct] at herr ⊢
    rcases reads_ok_or_first_failure ops e fields with hall
      | ⟨pre, f, post, l, lookupErr, hsplit, hpre, hl, hfail⟩
    · rw [unmarshalFields_ok ops e fields hall] at herr
      simp at herr
    · refine ⟨pre, f, post, l, lookupErr, hsplit, hl, hfail, ?_⟩
      rw [hsplit, unmarshalFields_first_failure ops e pre f post l lookupErr hpre hl hfail]
      exact ⟨rfl, rfl⟩

/-- Two instances of amended claim C10.  For the record with the int field Age (labelled "age")
and the string field Name, the getter calls are GetInteger("age", nil) and GetString("name", nil),
and the fields hold 42 and "Alice".  Without the entry for age and with an int32 field Count in
front, the run fails at Age after the one call GetInteger("age", nil), and Count, Age and Name
keep their values. -/
theorem UnmarshalEvent_dispatch_by_kind_witness :
    (UnmarshalEvent asciiToLower specKvs aliceEvent
        (.pointerToStruct [ageField, nameField])).err = none
    ∧ ((UnmarshalEvent asciiToLower specKvs aliceEvent
          (.pointerToStruct [ageField, nameField])).lookups
        = [⟨.GetInteger, "age", none⟩, ⟨.GetString, "name", none⟩]
      ∧ (UnmarshalEvent asciiToLower specKvs aliceEvent
          (.pointerToStruct [ageField, nameField])).target
        = .pointerToStruct [{ ageField with value := .int 42 },
                            { nameField with value := .string "Alice" }])
    ∧ UnmarshalEvent asciiToLower specKvs nameOnlyEvent
        (.pointerToStruct [countField .Int32, ageField, nameField])
      = { target := .pointerToStruct [countField .Int32, ageField, nameField],
          err := some (.errorString
            "error getting integer for key age: KeyNotFoundError: age []"),
          lookups := [⟨.GetInteger, "age", none⟩] }
    ∧ ∃ pre f post l lookupErr,
        [countField .Int32, ageField, nameField] = pre ++ f :: post
        ∧ lookupOf asciiToLower f = some l
        ∧ specKvs.get nameOnlyEvent.Kvs l.getter l.key l.ns = .error lookupErr
        ∧ (UnmarshalEvent asciiToLower specKvs nameOnlyEvent
            (.pointerToStruct [countField .Int32, ageField, nameField])).lookups
          = pre.filterMap (lookupOf asciiToLower) ++ [l]
        ∧ (UnmarshalEvent asciiToLower specKvs nameOnlyEvent
            (.pointerToStruct [countField .Int32, ageField, nameField])).target
          = .pointerToStruct (pre.map (readField asciiToLower specKvs nameOnlyEvent)
              ++ f :: post) :=
  ⟨rfl,
   (UnmarshalEvent_dispatch_by_kind asciiToLower specKvs aliceEvent
      [ageField, nameField]).2.2.2.1 rfl,
   rfl,
   (UnmarshalEvent_dispatch_by_kind asciiToLower specKvs nameOnlyEvent
      [countField .Int32, ageField, nameField]).2.2.2.2
     (.errorString "error getting integer for key age: KeyNotFoundError: age []") rfl⟩

/-! ## Fields that the marshaller skips -/

theorem lookupOf_skipped {f : StructField}
    (h : f.CanSet = false
      ∨ (f.Kind ≠ .Int ∧ f.Kind ≠ .Float64 ∧ f.Kind ≠ .String ∧ f.Kind ≠ .Bool)) :
    lookupOf ToLower f = none := by
  rcases h with h | ⟨h1, h2, h3, h4⟩
  · simp [lookupOf, h]
  · cases hk : f.Kind <;> simp_all [lookupOf, dispatch]

theorem unmarshalFields_insert_skipped {σ ε : Type} (ops : KvsOps σ ε) (e : Event σ)
    (pre : List StructField) (f : StructField) (post : List StructField)
    (hf : lookupOf ToLower f = none) :
    ∃ pre1 post1, pre1.length = pre.length
      ∧ (unmarshalFields ToLower ops e (pre ++ post)).target = pre1 ++ post1
      ∧ (unmarshalFields ToLower ops e (pre ++ f :: post)).target = pre1 ++ f :: post1
      ∧ (unmarshalFields ToLower ops e (pre ++ f :: post)).err = (unmarshalFields ToLower ops e (pre ++ post)).err
      ∧ (unmarshalFields ToLower ops e (pre ++ f :: post)).lookups
        = (unmarshalFields ToLower ops e (pre ++ post)).lookups := by
  induction pre with
  | nil =>
    refine ⟨[], (unmarshalFields ToLower ops e post).target, rfl, rfl, ?_, ?_, ?_⟩ <;>
      simp [unmarshalFields_cons ops e f post, hf, Unmarshalled.after]
  | cons g rest ih =>
    obtain ⟨pre1, post1, hlen, h1, h2, h3, h4⟩ := ih
    simp only [List.cons_append]
    rw [unmarshalFields_cons ops e g (rest ++ post),
      unmarshalFields_cons ops e g (rest ++ f :: post)]
    cases hl : lookupOf ToLower g with
    | none =>
      exact ⟨g :: pre1, post1, by simp [hlen], by simp [Unmarshalled.after, h1],
        by simp [Unmarshalled.after, h2], by simp [Unmarshalled.after, h3],
        by simp [Unmarshalled.after, h4]⟩
    | some l =>
      cases hg : ops.get e.Kvs l.getter l.key l.ns with
      | ok v =>
        exact ⟨{ g with value := v } :: pre1, post1, by simp [hlen],
          by simp [Unmarshalled.after, h1, hg], by simp [Unmarshalled.after, h2, hg],
          by simp [Unmarshalled.after, h3, hg], by simp [Unmarshalled.after, h4, hg]⟩
      | error err =>
        exact ⟨g :: rest, post, by simp, by simp [hg], by simp [hg], by simp [hg],
          by simp [hg]⟩

/-- Claim C11.  Let `f` be a field that cannot be set, or whose kind is none of `Int`, `Float64`,
`String`, `Bool`.  For every key-value set, event and record, the run of `UnmarshalEvent` on the
record with `f` added at any position returns the same error or success and makes the same getter
calls as the run on the record without `f` (so no getter is called for `f`, and `f` causes no
error even when the event has no entry for it), leaves `f` as it is, and leaves in the other
fields exactly the values that the run without `f` leaves.  This holds with any function
`ToLower` in the place of `strings.ToLower`. -/
theorem UnmarshalEvent_skips_field (ToLower : String → String) {σ ε : Type}
    (ops : KvsOps σ ε) (e : Event σ)
    (pre : List StructField) (f : StructField) (post : List StructField)
    (hf : f.CanSet = false
      ∨ (f.Kind ≠ .Int ∧ f.Kind ≠ .Float64 ∧ f.Kind ≠ .String ∧ f.Kind ≠ .Bool)) :
    (UnmarshalEvent ToLower ops e (.pointerToStruct (pre ++ f :: post))).err
        = (UnmarshalEvent ToLower ops e (.pointerToStruct (pre ++ post))).err
    ∧ (UnmarshalEvent ToLower ops e (.pointerToStruct (pre ++ f :: post))).lookups
        = (UnmarshalEvent ToLower ops e (.pointerToStruct (pre ++ post))).lookups
    ∧ ∃ pre1 post1, pre1.length = pre.length
        ∧ (UnmarshalEvent ToLower ops e (.pointerToStruct (pre ++ post))).target
          = .pointerToStruct (pre1 ++ post1)
        ∧ (UnmarshalEvent ToLower ops e (.pointerToStruct (pre ++ f :: post))).target
          = .pointerToStruct (pre1 ++ f :: post1) := by
  obtain ⟨pre1, post1, hlen, h1, h2, h3, h4⟩ :=
    unmarshalFields_insert_skipped ops e pre f post (lookupOf_skipped hf)
  simp only [UnmarshalEvent_pointerToStruct]
  exact ⟨h3, h4, pre1, post1, hlen, by rw [h1], by rw [h2]⟩

/-- Two instances of claim C11 on the record with the fields Age and Name: an unexported slice
field between them, and a settable field of kind struct after them, for neither of which the event
has an entry, are passed over; Age = 42 and Name = "Alice" are read as without them. -/
theorem UnmarshalEvent_skips_field_witness :
    UnmarshalEvent asciiToLower specKvs aliceEvent (.pointerToStruct [ageField, cacheField, nameField])
        = { target := .pointerToStruct [{ ageField with value := .int 42 }, cacheField,
              { nameField with value := .string "Alice" }],
            err := none,
            lookups := [⟨.GetInteger, "age", none⟩, ⟨.GetString, "name", none⟩] }
    ∧ ((UnmarshalEvent asciiToLower specKvs aliceEvent
          (.pointerToStruct ([ageField, nameField] ++ metaField :: []))).err
        = (UnmarshalEvent asciiToLower specKvs aliceEvent (.pointerToStruct ([ageField, nameField] ++ []))).err
      ∧ (UnmarshalEvent asciiToLower specKvs aliceEvent
          (.pointerToStruct ([ageField, nameField] ++ metaField :: []))).lookups
        = (UnmarshalEvent asciiToLower specKvs aliceEvent
            (.pointerToStruct ([ageField, nameField] ++ []))).lookups
      ∧ ∃ pre1 post1, pre1.length = [ageField, nameField].length
        ∧ (UnmarshalEvent asciiToLower specKvs aliceEvent
            (.pointerToStruct ([ageField, nameField] ++ []))).target
          = .pointerToStruct (pre1 ++ post1)
        ∧ (UnmarshalEvent asciiToLower specKvs aliceEvent
            (.pointerToStruct ([ageField, nameField] ++ metaField :: []))).target
          = .pointerToStruct (pre1 ++ metaField :: post1)) :=
  ⟨rfl, UnmarshalEvent_skips_field asciiToLower specKvs aliceEvent [ageField, nameField]
    metaField []
    (Or.inr ⟨by decide, by decide, by decide, by decide⟩)⟩

/-! ## The two topic builders side by side -/

/-- Claim C12 (the code departs from it).  On a key-value set that rejects the key "topic3"
whatever the namespace, both builders make the same insertions up to the namespace of topic0
(topic0, topic1, topic3) with the same outcomes, and both fail at topic3; yet the message of
`NewTns1AxisEvent` names "topic2" and the message of `NewTnsAxisEvent` names "topic3". -/
theorem topic_builders_differ_on_topic3_message :
    NewTns1AxisEvent (traced (rejecting "topic3")) "Device" "IO" none (some "Port") [portEntry]
      = .error (.wrapError "failed to add key-value for topic2: rejected topic3"
          ("rejected topic3",
            [Call.AddKeyValue "topic0" (some "tns1") (.string "Device") .AXValueTypeString,
             Call.AddKeyValue "topic1" (some "tnsAxis") (.string "IO") .AXValueTypeString,
             Call.AddKeyValue "topic3" (some "tnsAxis") (.string "Port") .AXValueTypeString]))
    ∧ NewTnsAxisEvent (traced (rejecting "topic3")) "Device" "IO" none (some "Port") [portEntry]
      = .error (.wrapError "failed to add key-value for topic3: rejected topic3"
          ("rejected topic3",
            [Call.AddKeyValue "topic0" (some "tnsAxis") (.string "Device") .AXValueTypeString,
             Call.AddKeyValue "topic1" (some "tnsAxis") (.string "IO") .AXValueTypeString,
             Call.AddKeyValue "topic3" (some "tnsAxis") (.string "Port") .AXValueTypeString]))
    ∧ (NewTns1AxisEvent (rejecting "topic3") "Device" "IO" none (some "Port")
          [portEntry]).toOption = none
    ∧ (NewTnsAxisEvent (rejecting "topic3") "Device" "IO" none (some "Port")
          [portEntry]).toOption = none := by
  refine ⟨rfl, rfl, rfl, rfl⟩

/-! ## Marker counts in the platform event builder -/

/-- Claim C13.  Once the topics and the payload of `NewCameraApplicationPlatformEvent` are
inserted (on the key-value set of section 4.1), the builder succeeds exactly when every supplied
marker and nice name refers to one of the inserted entries, however many source and data markers
there are, and the set it returns carries all the supplied source and data markers.  In
particular it succeeds with two source markers on distinct entries, with no data marker, and with
two data markers. -/
theorem platform_event_marker_counts_unchecked (app_setup : Setup) (event_name : String)
    (event_nice_name : Option String) (kvs_entries : List KeyValueEntrie)
    (source_markers : List AxEventKeyValueSetSourceMark)
    (data_markers : List AxEventKeyValueSetDataMark)
    (user_defined_markers : List AxEventKeyValueSetUserDefineMark)
    (nice_names : List AxEventKeyValueSetNiceNames) (s0 : AXEventKeyValueSet)
    (h0 : NewTnsAxisEvent specKvs "CameraApplicationPlatform" app_setup.AppName
      (some event_name) none kvs_entries = .ok s0) :
    (((∃ s, NewCameraApplicationPlatformEvent specKvs app_setup event_name event_nice_name
            kvs_entries source_markers data_markers user_defined_markers nice_names = .ok s)
        ↔ ∀ key ns,
            Referenced source_markers data_markers user_defined_markers nice_names key ns →
            Present (insertions OnfivNameSpaceTnsAxis "CameraApplicationPlatform"
              app_setup.AppName (some event_name) none kvs_entries) key ns)
      ∧ ∀ s, NewCameraApplicationPlatformEvent specKvs app_setup event_name event_nice_name
            kvs_entries source_markers data_markers user_defined_markers nice_names = .ok s →
          s.sources = source_markers ∧ s.datas = data_markers)
    ∧ (∃ s, NewCameraApplicationPlatformEvent specKvs myApp "Active" none
          [portEntry, stateEntry] [⟨"port", none⟩, ⟨"state", none⟩] [] [] [] = .ok s
        ∧ s.sources = [⟨"port", none⟩, ⟨"state", none⟩] ∧ s.datas = [])
    ∧ (∃ s, NewCameraApplicationPlatformEvent specKvs myApp "Active" none
          [portEntry, stateEntry] [] [⟨"port", none⟩, ⟨"state", none⟩] [] [] = .ok s
        ∧ s.sources = [] ∧ s.datas = [⟨"port", none⟩, ⟨"state", none⟩]) := by
  refine ⟨?_, ⟨_, rfl, rfl, rfl⟩, ⟨_, rfl, rfl, rfl⟩⟩
  have hpres : ∀ key ns, s0.has key ns = true ↔
      Present (insertions OnfivNameSpaceTnsAxis "CameraApplicationPlatform"
        app_setup.AppName (some event_name) none kvs_entries) key ns := by
    intro key ns
    rw [has_iff_present, (spec_NewTnsAxisEvent_ok h0).1]
  rcases spec_platform_event app_setup event_name event_nice_name kvs_entries
    source_markers data_markers user_defined_markers nice_names s0 h0 with
    ⟨h1, h2, h3, h4, hok⟩ | ⟨key, ns, hbad, href, herr⟩
  · refine ⟨⟨fun _ key ns href => ?_, fun _ => ⟨_, hok⟩⟩, ?_⟩
    · rw [← hpres]
      rcases href with ⟨m, hm, rfl, rfl⟩ | ⟨m, hm, rfl, rfl⟩ | ⟨m, hm, rfl, rfl⟩
        | ⟨m, hm, rfl, rfl⟩
      · exact h1 m hm
      · exact h2 m hm
      · exact h3 m hm
      · exact h4 m hm
    · intro s hs
      rw [hok] at hs
      simp only [Except.ok.injEq] at hs
      subst hs
      exact ⟨rfl, rfl⟩
  · refine ⟨⟨fun ⟨s, hs⟩ => ?_, fun hall => ?_⟩, ?_⟩
    · rw [herr] at hs
      simp at hs
    · have := (hpres key ns).mpr (hall key ns href)
      rw [hbad] at this
      simp at this
    · intro s hs
      rw [herr] at hs
      simp at hs

/-- An instance of claim C13: with the payload port, state, two source markers (on port and on
state) and no data marker, every reference is to an inserted entry and the builder succeeds. -/
theorem platform_event_marker_counts_unchecked_witness :
    NewTnsAxisEvent specKvs "CameraApplicationPlatform" myApp.AppName (some "Active") none
        [portEntry, stateEntry] = .ok myAppActivePortState
    ∧ ∃ s, NewCameraApplicationPlatformEvent specKvs myApp "Active" none
        [portEntry, stateEntry] [⟨"port", none⟩, ⟨"state", none⟩] [] [] [] = .ok s :=
  ⟨rfl, ((platform_event_marker_counts_unchecked myApp "Active" none [portEntry, stateEntry]
      [⟨"port", none⟩, ⟨"state", none⟩] [] [] [] myAppActivePortState rfl).1.1).mpr (by
    intro key ns href
    rcases href with ⟨m, hm, h1, h2⟩ | ⟨m, hm, h1, h2⟩ | ⟨m, hm, h1, h2⟩ | ⟨m, hm, h1, h2⟩
    · simp only [List.mem_cons, List.mem_singleton, List.not_mem_nil, or_false] at hm
      rcases hm with rfl | rfl
      · exact ⟨portEntry, by simp [insertions], h1, h2⟩
      · exact ⟨stateEntry, by simp [insertions], h1, h2⟩
    · simp at hm
    · simp at hm
    · simp at hm)⟩

/-! ## When insertion into the key-value set of section 4.1 fails -/

theorem inserted_append {σ ε : Type} (ops : KvsOps σ ε) {s t u : σ}
    {a b : List KeyValueEntrie} (ha : Inserted ops s a t) (hb : Inserted ops t b u) :
    Inserted ops s (a ++ b) u := by
  induction ha with
  | nil s => exact hb
  | cons hadd _ ih => exact Inserted.cons hadd (ih hb)

theorem spec_add_cases (s : AXEventKeyValueSet) (kv : KeyValueEntrie) :
    (Unacceptable (s.entries.map Binding.toKeyValueEntrie) kv
      ∧ ∃ err, (err = .DuplicateKeyError kv.Key kv.Namespace
          ∨ err = .TypeMismatchError kv.Key kv.Namespace kv.ValueType)
        ∧ specKvs.add s kv = .error err)
    ∨ (¬ Unacceptable (s.entries.map Binding.toKeyValueEntrie) kv
      ∧ ∃ t, specKvs.add s kv = .ok t
        ∧ t.entries.map Binding.toKeyValueEntrie
          = s.entries.map Binding.toKeyValueEntrie ++ [kv]) := by
  cases hhas : s.has kv.Key kv.Namespace with
  | true =>
    refine Or.inl ⟨Or.inr ((has_iff_present _ _ _).mp hhas), _, Or.inl rfl, ?_⟩
    simp [KvsOps.add, specKvs, AXEventKeyValueSet.AddKeyValue, hhas]
  | false =>
    have hnot : ¬ Present (s.entries.map Binding.toKeyValueEntrie) kv.Key kv.Namespace := by
      rw [← has_iff_present, hhas]
      simp
    cases htyped : typed kv.Value kv.ValueType with
    | none =>
      refine Or.inl ⟨Or.inl htyped, _, Or.inr rfl, ?_⟩
      simp [KvsOps.add, specKvs, AXEventKeyValueSet.AddKeyValue, hhas, htyped]
    | some tv =>
      refine Or.inr ⟨?_, ?_⟩
      · rintro (h | h)
        · rw [htyped] at h
          cases h
        · exact hnot h
      · have hadd : specKvs.add s kv
            = .ok { s with entries := s.entries ++ [⟨kv.Key, kv.Namespace, tv⟩] } := by
          simp [KvsOps.add, specKvs, AXEventKeyValueSet.AddKeyValue, hhas, htyped]
        obtain ⟨b, hb, -, ht⟩ := specKvs_add_ok hadd
        refine ⟨_, hadd, ?_⟩
        rw [ht]
        simp [hb]

theorem spec_inserted_entries {s t : AXEventKeyValueSet} {kvs : List KeyValueEntrie}
    (h : Inserted specKvs s kvs t) :
    t.entries.map Binding.toKeyValueEntrie = s.entries.map Binding.toKeyValueEntrie ++ kvs := by
  induction h with
  | nil s => simp
  | @cons s0 s1 t0 kv rest hadd _ ih =>
    rcases spec_add_cases s0 kv with ⟨-, err, -, herr⟩ | ⟨-, t1, hok, hent⟩
    · rw [herr] at hadd
      cases hadd
    · rw [hok] at hadd
      cases hadd
      rw [ih, hent]
      simp

theorem spec_inserted_of_acceptable (s : AXEventKeyValueSet) (kvs : List KeyValueEntrie)
    (h : ∀ pre kv post, kvs = pre ++ kv :: post →
      ¬ Unacceptable (s.entries.map Binding.toKeyValueEntrie ++ pre) kv) :
    ∃ t, Inserted specKvs s kvs t := by
  induction kvs generalizing s with
  | nil => exact ⟨s, Inserted.nil s⟩
  | cons kv rest ih =>
    rcases spec_add_cases s kv with ⟨hbad, -⟩ | ⟨-, t1, hok, hent⟩
    · exact absurd (by simpa using hbad) (h [] kv rest rfl)
    · obtain ⟨t, ht⟩ := ih t1 (fun pre x post hsplit => by
        have := h (kv :: pre) x post (by simp [hsplit])
        rw [hent]
        simpa using this)
      exact ⟨t, Inserted.cons hok ht⟩

theorem spec_acceptable_of_inserted {s t : AXEventKeyValueSet} {kvs : List KeyValueEntrie}
    (h : Inserted specKvs s kvs t) (pre : List KeyValueEntrie) (kv : KeyValueEntrie)
    (post : List KeyValueEntrie) (hsplit : kvs = pre ++ kv :: post) :
    ¬ Unacceptable (s.entries.map Binding.toKeyValueEntrie ++ pre) kv := by
  induction h generalizing pre with
  | nil s => simp at hsplit
  | @cons s0 s1 t0 x rest hadd _ ih =>
    rcases spec_add_cases s0 x with ⟨-, err, -, herr⟩ | ⟨hgood, t1, hok, hent⟩
    · rw [herr] at hadd
      cases hadd
    · rw [hok] at hadd
      cases hadd
      cases pre with
      | nil =>
        simp only [List.nil_append, List.cons.injEq] at hsplit
        obtain ⟨rfl, -⟩ := hsplit
        simpa using hgood
      | cons p pre1 =>
        simp only [List.cons_append, List.cons.injEq] at hsplit
        obtain ⟨rfl, hrest⟩ := hsplit
        have := ih pre1 hrest
        rw [hent] at this
        simpa using this

theorem spec_topics_inserted (ns0 topic0 topic1 : String) (topic2 topic3 : Option String) :
    ∃ t, Inserted specKvs AXEventKeyValueSet.empty
      (insertions ns0 topic0 topic1 topic2 topic3 []) t := by
  apply spec_inserted_of_acceptable
  intro pre kv post hsplit
  have htyped : ∀ x ∈ insertions ns0 topic0 topic1 topic2 topic3 [],
      typed x.Value x.ValueType ≠ none := by
    intro x hx
    cases topic2 <;> cases topic3 <;>
      simp [insertions, topicEntry] at hx <;>
      rcases hx with rfl | rfl | rfl | rfl <;> simp [typed]
  rintro (h | ⟨x, hx, hkey, -⟩)
  · exact htyped kv (by rw [hsplit]; simp) h
  · simp only [AXEventKeyValueSet.empty, List.map_nil, List.nil_append] at hx
    have hnodup : ((insertions ns0 topic0 topic1 topic2 topic3 []).map
        KeyValueEntrie.Key).Nodup := by
      cases topic2 <;> cases topic3 <;> simp [insertions, topicEntry]
    rw [hsplit, List.map_append, List.map_cons] at hnodup
    have hdisj := (List.nodup_append.mp hnodup).2.2
    exact hdisj (List.mem_map_of_mem _ hx) (by rw [hkey]; simp)

theorem insertions_append (ns0 topic0 topic1 : String) (topic2 topic3 : Option String)
    (keyvalues : List KeyValueEntrie) :
    insertions ns0 topic0 topic1 topic2 topic3 keyvalues
      = insertions ns0 topic0 topic1 topic2 topic3 [] ++ keyvalues := by
  simp [insertions]

theorem labelled_split (label3 ns0 topic0 topic1 : String) (topic2 topic3 : Option String)
    (pre : List KeyValueEntrie) (kv : KeyValueEntrie) (post : List KeyValueEntrie) :
    labelled label3 ns0 topic0 topic1 topic2 topic3 (pre ++ kv :: post)
      = labelled label3 ns0 topic0 topic1 topic2 topic3 pre
        ++ (kv.Key, kv) :: post.map (fun x => (x.Key, x)) := by
  simp [labelled]

/-- The contract of a topic builder on the key-value set of section 4.1, for the scheme with
topic0 under `ns0` and the label `label3` for topic3: the topics alone always insert; the run
fails exactly when some payload entry is unacceptable after the topics and the payload entries
before it; and the error is that of the first such entry, wrapped with its key. -/
theorem spec_payload_contract (label3 ns0 topic0 topic1 : String) (topic2 topic3 : Option String)
    (keyvalues : List KeyValueEntrie) :
    (∃ s, insertLabelled specKvs specKvs.NewAXEventKeyValueSet
        (labelled label3 ns0 topic0 topic1 topic2 topic3 []) = .ok s)
    ∧ ((∃ e, insertLabelled specKvs specKvs.NewAXEventKeyValueSet
          (labelled label3 ns0 topic0 topic1 topic2 topic3 keyvalues) = .error e)
        ↔ ∃ pre kv post, keyvalues = pre ++ kv :: post
          ∧ Unacceptable (insertions ns0 topic0 topic1 topic2 topic3 pre) kv)
    ∧ ∀ pre kv post, keyvalues = pre ++ kv :: post →
        (∀ pre1 x post1, pre = pre1 ++ x :: post1 →
          ¬ Unacceptable (insertions ns0 topic0 topic1 topic2 topic3 pre1) x) →
        Unacceptable (insertions ns0 topic0 topic1 topic2 topic3 pre) kv →
        ∃ err, (err = .DuplicateKeyError kv.Key kv.Namespace
            ∨ err = .TypeMismatchError kv.Key kv.Namespace kv.ValueType)
          ∧ insertLabelled specKvs specKvs.NewAXEventKeyValueSet
              (labelled label3 ns0 topic0 topic1 topic2 topic3 keyvalues)
            = .error (.wrapError
                ("failed to add key-value for " ++ kv.Key ++ ": " ++ err.Error) err) := by
  obtain ⟨sT, hT⟩ := spec_topics_inserted ns0 topic0 topic1 topic2 topic3
  have hentT : sT.entries.map Binding.toKeyValueEntrie
      = insertions ns0 topic0 topic1 topic2 topic3 [] := by
    simpa [AXEventKeyValueSet.empty] using spec_inserted_entries hT
  have hnew : specKvs.NewAXEventKeyValueSet = AXEventKeyValueSet.empty := rfl
  have hgood : ∀ kvs : List KeyValueEntrie,
      (∀ pre kv post, kvs = pre ++ kv :: post →
        ¬ Unacceptable (insertions ns0 topic0 topic1 topic2 topic3 pre) kv) →
      ∃ t, Inserted specKvs AXEventKeyValueSet.empty
        (insertions ns0 topic0 topic1 topic2 topic3 kvs) t := by
    intro kvs hall
    obtain ⟨t, ht⟩ := spec_inserted_of_acceptable sT kvs (fun pre kv post hsplit => by
      rw [hentT, ← insertions_append]
      exact hall pre kv post hsplit)
    exact ⟨t, by rw [insertions_append]; exact inserted_append specKvs hT ht⟩
  refine ⟨?_, ?_, ?_⟩
  · refine ⟨sT, ?_⟩
    rw [hnew]
    exact insertLabelled_of_inserted specKvs (by rw [labelled_map_snd]; exact hT)
  · constructor
    · rintro ⟨e, he⟩
      by_contra hno
      obtain ⟨t, ht⟩ := hgood keyvalues (fun pre kv post hsplit hbad =>
        hno ⟨pre, kv, post, hsplit, hbad⟩)
      have hok := @insertLabelled_of_inserted _ _ specKvs
        (labelled label3 ns0 topic0 topic1 topic2 topic3 keyvalues) _ _
        (by rw [labelled_map_snd]; exact ht)
      rw [hnew, hok] at he
      cases he
    · rintro ⟨pre, kv, post, hsplit, hbad⟩
      cases hrun : insertLabelled specKvs specKvs.NewAXEventKeyValueSet
          (labelled label3 ns0 topic0 topic1 topic2 topic3 keyvalues) with
      | error e => exact ⟨e, rfl⟩
      | ok t =>
        exfalso
        have hins := insertLabelled_ok specKvs hrun
        rw [labelled_map_snd, hnew] at hins
        have := spec_acceptable_of_inserted hins
          (insertions ns0 topic0 topic1 topic2 topic3 pre) kv post
          (by rw [insertions_append, hsplit, insertions_append ns0 topic0 topic1 topic2 topic3 pre]
              simp)
        apply this
        simpa [AXEventKeyValueSet.empty] using hbad
  · intro pre kv post hsplit hpre hbad
    obtain ⟨s1, hs1⟩ := hgood pre hpre
    have hent1 : s1.entries.map Binding.toKeyValueEntrie
        = insertions ns0 topic0 topic1 topic2 topic3 pre := by
      simpa [AXEventKeyValueSet.empty] using spec_inserted_entries hs1
    rcases spec_add_cases s1 kv with ⟨-, err, herr, hfail⟩ | ⟨hacc, -⟩
    · refine ⟨err, herr, ?_⟩
      rw [hsplit, labelled_split, hnew]
      exact insertLabelled_first_failure specKvs
        (by rw [labelled_map_snd]; exact hs1) hfail
    · rw [hent1] at hacc
      exact absurd hbad hacc

/-- Claim C14.  On the key-value set of section 4.1, for both topic builders and any topic
strings: with no payload the builder succeeds (the insertion of topic0..topic3 never fails); the
builder fails exactly when some payload entry has a value inconsistent with its declared type or
has the key and namespace of an inserted topic entry or of an earlier payload entry; and at the
first such payload entry the error is its DuplicateKeyError or TypeMismatchError, wrapped in a
message that names the key of that entry. -/
theorem topic_builders_fail_only_on_payload (topic0 topic1 : String)
    (topic2 topic3 : Option String) (keyvalues : List KeyValueEntrie) :
    ((∃ s, NewTns1AxisEvent specKvs topic0 topic1 topic2 topic3 [] = .ok s)
      ∧ ((∃ e, NewTns1AxisEvent specKvs topic0 topic1 topic2 topic3 keyvalues = .error e)
          ↔ ∃ pre kv post, keyvalues = pre ++ kv :: post
            ∧ Unacceptable (insertions OnfivNameSpaceTns1 topic0 topic1 topic2 topic3 pre) kv)
      ∧ ∀ pre kv post, keyvalues = pre ++ kv :: post →
          (∀ pre1 x post1, pre = pre1 ++ x :: post1 →
            ¬ Unacceptable (insertions OnfivNameSpaceTns1 topic0 topic1 topic2 topic3 pre1) x) →
          Unacceptable (insertions OnfivNameSpaceTns1 topic0 topic1 topic2 topic3 pre) kv →
          ∃ err, (err = .DuplicateKeyError kv.Key kv.Namespace
              ∨ err = .TypeMismatchError kv.Key kv.Namespace kv.ValueType)
            ∧ NewTns1AxisEvent specKvs topic0 topic1 topic2 topic3 keyvalues
              = .error (.wrapError
                  ("failed to add key-value for " ++ kv.Key ++ ": " ++ err.Error) err))
    ∧ ((∃ s, NewTnsAxisEvent specKvs topic0 topic1 topic2 topic3 [] = .ok s)
      ∧ ((∃ e, NewTnsAxisEvent specKvs topic0 topic1 topic2 topic3 keyvalues = .error e)
          ↔ ∃ pre kv post, keyvalues = pre ++ kv :: post
            ∧ Unacceptable (insertions OnfivNameSpaceTnsAxis topic0 topic1 topic2 topic3 pre) kv)
      ∧ ∀ pre kv post, keyvalues = pre ++ kv :: post →
          (∀ pre1 x post1, pre = pre1 ++ x :: post1 →
            ¬ Unacceptable
              (insertions OnfivNameSpaceTnsAxis topic0 topic1 topic2 topic3 pre1) x) →
          Unacceptable (insertions OnfivNameSpaceTnsAxis topic0 topic1 topic2 topic3 pre) kv →
          ∃ err, (err = .DuplicateKeyError kv.Key kv.Namespace
              ∨ err = .TypeMismatchError kv.Key kv.Namespace kv.ValueType)
            ∧ NewTnsAxisEvent specKvs topic0 topic1 topic2 topic3 keyvalues
              = .error (.wrapError
                  ("failed to add key-value for " ++ kv.Key ++ ": " ++ err.Error) err)) := by
  constructor
  · have h := spec_payload_contract "topic2" OnfivNameSpaceTns1 topic0 topic1 topic2 topic3
      keyvalues
    simp only [← NewTns1AxisEvent_eq_insertLabelled] at h
    exact h
  · have h := spec_payload_contract "topic3" OnfivNameSpaceTnsAxis topic0 topic1 topic2 topic3
      keyvalues
    simp only [← NewTnsAxisEvent_eq_insertLabelled] at h
    exact h

/-- An instance of claim C14: a payload entry with the key "topic1" under tnsAxis, after the
entry port, collides with the inserted topic1; `NewTns1AxisEvent` fails with the
DuplicateKeyError wrapped in a message that names "topic1". -/
theorem topic_builders_fail_only_on_payload_witness :
    NewTns1AxisEvent specKvs "Device" "IO" none (some "Port")
        [portEntry, topicEntry "topic1" OnfivNameSpaceTnsAxis "again", stateEntry]
      = .error (.wrapError
          "failed to add key-value for topic1: DuplicateKeyError: topic1 [tnsAxis]"
          (.DuplicateKeyError "topic1" (some "tnsAxis")))
    ∧ ∃ err, (err = .DuplicateKeyError "topic1" (some OnfivNameSpaceTnsAxis)
          ∨ err = .TypeMismatchError "topic1" (some OnfivNameSpaceTnsAxis) .AXValueTypeString)
        ∧ NewTns1AxisEvent specKvs "Device" "IO" none (some "Port")
            [portEntry, topicEntry "topic1" OnfivNameSpaceTnsAxis "again", stateEntry]
          = .error (.wrapError
              ("failed to add key-value for " ++ "topic1" ++ ": " ++ err.Error) err) :=
  ⟨rfl, (topic_builders_fail_only_on_payload "Device" "IO" none (some "Port")
      [portEntry, topicEntry "topic1" OnfivNameSpaceTnsAxis "again", stateEntry]).1.2.2
    [portEntry] (topicEntry "topic1" OnfivNameSpaceTnsAxis "again") [stateEntry] rfl
    (by
      intro pre1 x post1 hsplit
      have hx : pre1 = [] ∧ x = portEntry := by
        cases pre1 with
        | nil =>
          simp only [List.nil_append, List.cons.injEq] at hsplit
          exact ⟨rfl, hsplit.1.symm⟩
        | cons p rest =>
          simp only [List.cons_append, List.cons.injEq] at hsplit
          have := hsplit.2
          simp at this
      obtain ⟨rfl, rfl⟩ := hx
      rintro (h | ⟨y, hy, hkey, -⟩)
      · simp [typed, portEntry] at h
      · simp [insertions, topicEntry, portEntry] at hy hkey
        rcases hy with rfl | rfl | rfl <;> simp at hkey)
    (Or.inr ⟨topicEntry "topic1" OnfivNameSpaceTnsAxis "IO", by simp [insertions], rfl, rfl⟩)⟩

/-! ## Building an event from a record and reading it back -/

theorem forall2_map_eq_zipWith {α β γ : Type} {R : α → β → Prop} {h : β → γ} {k : α → β → γ}
    {xs : List α} {ys : List β} (hR : List.Forall₂ R xs ys)
    (hk : ∀ x y, x ∈ xs → R x y → h y = k x y) :
    ys.map h = List.zipWith k xs ys ∧ ∀ y ∈ ys, ∃ x ∈ xs, R x y := by
  induction hR with
  | nil => simp
  | @cons x y xs1 ys1 hxy _ ih =>
    obtain ⟨hmap, hmem⟩ := ih (fun a b ha hab => hk a b (List.mem_cons_of_mem _ ha) hab)
    refine ⟨?_, ?_⟩
    · simp [hk x y (List.mem_cons_self _ _) hxy, hmap]
    · intro b hb
      rcases List.mem_cons.mp hb with rfl | hb
      · exact ⟨x, List.mem_cons_self _ _, hxy⟩
      · obtain ⟨a, ha, hab⟩ := hmem b hb
        exact ⟨a, List.mem_cons_of_mem _ ha, hab⟩

theorem payloadOf_keys (fields : List StructField) :
    (payloadOf ToLower fields).map KeyValueEntrie.Key
      = (fields.filter (fun f => f.CanSet)).map
          (fun f => if f.eventKey = "" then ToLower f.Name else f.eventKey) := by
  simp [payloadOf, payloadEntry, Function.comp_def]

theorem topic_namespace_ne_none {ns0 topic0 topic1 : String} {topic2 topic3 : Option String}
    {x : KeyValueEntrie} (hx : x ∈ insertions ns0 topic0 topic1 topic2 topic3 []) :
    x.Namespace ≠ none := by
  cases topic2 <;> cases topic3 <;>
    simp [insertions, topicEntry] at hx <;>
    rcases hx with rfl | rfl | rfl | rfl <;> simp

theorem typed_of_wellTyped {f : StructField} (h : WellTyped f) :
    ∃ g, dispatch f.Kind = some g ∧ g.tag = kindTag f.Kind
      ∧ typed f.value (kindTag f.Kind) ≠ none := by
  rcases h with ⟨hk, i, hv⟩ | ⟨hk, x, hv⟩ | ⟨hk, s, hv⟩ | ⟨hk, b, hv⟩ <;>
    simp [hk, hv, dispatch, kindTag, typed, Getter.tag]

/-- The build of a topic event whose payload is that of a well-typed record with pairwise
distinct lookup keys succeeds, and the set it returns stores every payload entry where the
getters look for it. -/
theorem spec_build_payloadOf (label3 ns0 topic0 topic1 : String) (topic2 topic3 : Option String)
    (fields : List StructField)
    (htyped : ∀ f ∈ fields, f.CanSet = true → WellTyped f)
    (hdistinct : ((fields.filter (fun f => f.CanSet)).map
      (fun f => if f.eventKey = "" then ToLower f.Name else f.eventKey)).Nodup) :
    ∃ s, insertLabelled specKvs specKvs.NewAXEventKeyValueSet
        (labelled label3 ns0 topic0 topic1 topic2 topic3 (payloadOf ToLower fields)) = .ok s
      ∧ ∀ kv ∈ payloadOf ToLower fields,
          ∃ b, s.find? kv.Key none = some b ∧ b.toKeyValueEntrie = kv := by
  have hkeys : ((payloadOf ToLower fields).map KeyValueEntrie.Key).Nodup := by
    rw [payloadOf_keys]; exact hdistinct
  have hns : ∀ kv ∈ payloadOf ToLower fields, kv.Namespace = none := by
    intro kv hkv
    simp only [payloadOf, List.mem_map] at hkv
    obtain ⟨f, -, rfl⟩ := hkv
    rfl
  have hval : ∀ kv ∈ payloadOf ToLower fields, typed kv.Value kv.ValueType ≠ none := by
    intro kv hkv
    simp only [payloadOf, List.mem_map, List.mem_filter] at hkv
    obtain ⟨f, ⟨hf, hc⟩, rfl⟩ := hkv
    obtain ⟨g, -, -, ht⟩ := typed_of_wellTyped (htyped f hf hc)
    exact ht
  have hcontract := spec_payload_contract label3 ns0 topic0 topic1 topic2 topic3
    (payloadOf ToLower fields)
  cases hrun : insertLabelled specKvs specKvs.NewAXEventKeyValueSet
      (labelled label3 ns0 topic0 topic1 topic2 topic3 (payloadOf ToLower fields)) with
  | error e =>
    exfalso
    obtain ⟨pre, kv, post, hsplit, hbad⟩ := hcontract.2.1.mp ⟨e, hrun⟩
    have hkv : kv ∈ payloadOf ToLower fields := by rw [hsplit]; simp
    rcases hbad with h | ⟨x, hx, hkey, hnsx⟩
    · exact hval kv hkv h
    · rw [insertions_append, List.mem_append] at hx
      rcases hx with hx | hx
      · exact topic_namespace_ne_none hx (by rw [hnsx, hns kv hkv])
      · rw [hsplit, List.map_append, List.map_cons] at hkeys
        exact (List.nodup_append.mp hkeys).2.2 (List.mem_map_of_mem _ hx)
          (by rw [hkey]; simp)
  | ok s =>
    refine ⟨s, rfl, ?_⟩
    have hent : s.entries.map Binding.toKeyValueEntrie
        = insertions ns0 topic0 topic1 topic2 topic3 [] ++ payloadOf ToLower fields := by
      have := specKvs_insertLabelled_entries hrun
      rw [labelled_map_snd, insertions_append] at this
      simpa [specKvs, AXEventKeyValueSet.empty] using this
    intro kv hkv
    have hhas : s.has kv.Key none = true := by
      rw [has_iff_present, hent]
      exact ⟨kv, List.mem_append_right _ hkv, rfl, hns kv hkv⟩
    cases hfind : s.find? kv.Key none with
    | none => simp [AXEventKeyValueSet.has, hfind] at hhas
    | some b =>
      refine ⟨b, rfl, ?_⟩
      have hp := List.find?_some hfind
      have hmem := List.mem_of_find?_eq_some hfind
      simp only [decide_eq_true_eq] at hp
      have hview : b.toKeyValueEntrie ∈ insertions ns0 topic0 topic1 topic2 topic3 []
          ++ payloadOf ToLower fields := by
        rw [← hent]; exact List.mem_map_of_mem _ hmem
      rcases List.mem_append.mp hview with hv | hv
      · exact absurd hp.2 (topic_namespace_ne_none hv)
      · exact List.inj_on_of_nodup_map hkeys hv hkv hp.1

/-- Reading back: if the set `s` stores every payload entry of the record `fields` where the
getters look for it, `UnmarshalEvent` into a record `fresh` of the same type returns no error and
leaves in every settable field the original field. -/
theorem spec_unmarshal_payloadOf (s : AXEventKeyValueSet) (fields fresh : List StructField)
    (htyped : ∀ f ∈ fields, f.CanSet = true → WellTyped f)
    (hfresh : List.Forall₂ SameType fields fresh)
    (hstored : ∀ kv ∈ payloadOf ToLower fields,
      ∃ b, s.find? kv.Key none = some b ∧ b.toKeyValueEntrie = kv) :
    (UnmarshalEvent ToLower specKvs { Kvs := s } (.pointerToStruct fresh)).err = none
    ∧ (UnmarshalEvent ToLower specKvs { Kvs := s } (.pointerToStruct fresh)).target
      = .pointerToStruct (List.zipWith (fun f g => if f.CanSet then f else g) fields fresh) := by
  have hfield : ∀ f g, f ∈ fields → SameType f g →
      ReadsOk ToLower specKvs { Kvs := s } g
        ∧ readField ToLower specKvs { Kvs := s } g = if f.CanSet then f else g := by
    intro f g hf hsame
    obtain ⟨hname, hlabel, hcan, hkind⟩ := hsame
    cases hc : f.CanSet with
    | false =>
      have hg : g.CanSet = false := by rw [hcan, hc]
      refine ⟨fun l hl => ?_, ?_⟩
      · simp [lookupOf, hg] at hl
      · simp [readField, lookupOf, hg]
    | true =>
      have hg : g.CanSet = true := by rw [hcan, hc]
      obtain ⟨gt, hd, htag, -⟩ := typed_of_wellTyped (htyped f hf hc)
      have hmem : payloadEntry ToLower f ∈ payloadOf ToLower fields := by
        simp only [payloadOf, List.mem_map, List.mem_filter]
        exact ⟨f, ⟨hf, hc⟩, rfl⟩
      obtain ⟨b, hfind, hb⟩ := hstored _ hmem
      have hkey : (if g.eventKey = "" then ToLower g.Name else g.eventKey)
          = (payloadEntry ToLower f).Key := by
        simp [payloadEntry, hname, hlabel]
      have hbtag : b.value.tag = gt.tag := by
        have := congrArg KeyValueEntrie.ValueType hb
        simp only [Binding.toKeyValueEntrie, payloadEntry] at this
        rw [this, htag]
      have hbval : b.value.payload = f.value := by
        have := congrArg KeyValueEntrie.Value hb
        simpa [Binding.toKeyValueEntrie, payloadEntry] using this
      have hreads := @spec_reads_ok ToLower { Kvs := s } g (fun g2 _ hd2 => by
        rw [hkind, hd] at hd2
        simp only [Option.some.injEq] at hd2
        subst hd2
        exact ⟨b, by rw [hkey]; exact hfind, hbtag⟩)
      refine ⟨hreads.1, ?_⟩
      rw [hreads.2]
      have hfind2 : s.find? (if g.eventKey = "" then ToLower g.Name else g.eventKey) none
          = some b := by rw [hkey]; exact hfind
      simp only [hg, hkind, hd, Option.isSome_some, and_self, if_true, stored, hfind2, hbval]
      obtain ⟨n1, l1, c1, k1, v1⟩ := f
      obtain ⟨n2, l2, c2, k2, v2⟩ := g
      simp_all
  obtain ⟨hmap, hmem⟩ := forall2_map_eq_zipWith hfresh (fun f g hf hsame => (hfield f g hf hsame).2)
  rw [UnmarshalEvent_pointerToStruct,
    unmarshalFields_ok specKvs { Kvs := s } fresh (fun g hg => by
      obtain ⟨f, hf, hsame⟩ := hmem g hg
      exact (hfield f g hf hsame).1)]
  exact ⟨rfl, by rw [hmap]⟩

/-- Claim C15.  Take a record whose settable fields are of kind int, float64, string or bool,
hold values of their kind and have pairwise distinct lookup keys.  With the payload that has one
entry per settable field (its lookup key, the nil namespace, its value, the matching type tag),
`NewTnsAxisEvent` and `NewTns1AxisEvent` succeed on the key-value set of section 4.1, for any
topics, and `UnmarshalEvent` on an event with the returned set, into any record of the same type,
returns no error and leaves every settable field equal to the field of the original record (the
fields that cannot be set keep what the fresh record had).  The lookup keys are computed with
any function `ToLower` in the place of `strings.ToLower`, the same in the payload and in the
marshaller. -/
theorem build_then_unmarshal_roundtrip (ToLower : String → String) (topic0 topic1 : String)
    (topic2 topic3 : Option String)
    (fields fresh : List StructField)
    (htyped : ∀ f ∈ fields, f.CanSet = true → WellTyped f)
    (hdistinct : ((fields.filter (fun f => f.CanSet)).map
      (fun f => if f.eventKey = "" then ToLower f.Name else f.eventKey)).Nodup)
    (hfresh : List.Forall₂ SameType fields fresh) :
    (∃ s, NewTnsAxisEvent specKvs topic0 topic1 topic2 topic3 (payloadOf ToLower fields) = .ok s
      ∧ (UnmarshalEvent ToLower specKvs { Kvs := s } (.pointerToStruct fresh)).err = none
      ∧ (UnmarshalEvent ToLower specKvs { Kvs := s } (.pointerToStruct fresh)).target
        = .pointerToStruct (List.zipWith (fun f g => if f.CanSet then f else g) fields fresh))
    ∧ (∃ s, NewTns1AxisEvent specKvs topic0 topic1 topic2 topic3 (payloadOf ToLower fields) = .ok s
      ∧ (UnmarshalEvent ToLower specKvs { Kvs := s } (.pointerToStruct fresh)).err = none
      ∧ (UnmarshalEvent ToLower specKvs { Kvs := s } (.pointerToStruct fresh)).target
        = .pointerToStruct
            (List.zipWith (fun f g => if f.CanSet then f else g) fields fresh)) := by
  constructor
  · obtain ⟨s, hs, hstored⟩ := spec_build_payloadOf "topic3" OnfivNameSpaceTnsAxis topic0 topic1
      topic2 topic3 fields htyped hdistinct
    rw [← NewTnsAxisEvent_eq_insertLabelled] at hs
    exact ⟨s, hs, spec_unmarshal_payloadOf s fields fresh htyped hfresh hstored⟩
  · obtain ⟨s, hs, hstored⟩ := spec_build_payloadOf "topic2" OnfivNameSpaceTns1 topic0 topic1
      topic2 topic3 fields htyped hdistinct
    rw [← NewTns1AxisEvent_eq_insertLabelled] at hs
    exact ⟨s, hs, spec_unmarshal_payloadOf s fields fresh htyped hfresh hstored⟩

/-- An instance of claim C15: the record Age = 42, Name = "Alice" is built into an event under
the topics Device/IO and read back into the record Age = 0, Name = "", which then equals the
original. -/
theorem build_then_unmarshal_roundtrip_witness :
    payloadOf asciiToLower aliceRecord
        = [⟨"age", none, .int 42, .AXValueTypeInt⟩,
           ⟨"name", none, .string "Alice", .AXValueTypeString⟩]
    ∧ List.zipWith (fun f g => if f.CanSet then f else g) aliceRecord [ageField, nameField]
        = aliceRecord
    ∧ (∃ s, NewTnsAxisEvent specKvs "Device" "IO" none none (payloadOf asciiToLower aliceRecord) = .ok s
      ∧ (UnmarshalEvent asciiToLower specKvs { Kvs := s } (.pointerToStruct [ageField, nameField])).err = none
      ∧ (UnmarshalEvent asciiToLower specKvs { Kvs := s } (.pointerToStruct [ageField, nameField])).target
        = .pointerToStruct (List.zipWith (fun f g => if f.CanSet then f else g) aliceRecord
            [ageField, nameField])) :=
  ⟨rfl, rfl, (build_then_unmarshal_roundtrip asciiToLower "Device" "IO" none none aliceRecord
    [ageField, nameField]
    (by
      intro f hf _
      simp only [aliceRecord, List.mem_cons, List.mem_singleton, List.not_mem_nil,
        or_false] at hf
      rcases hf with rfl | rfl
      · exact Or.inl ⟨rfl, 42, rfl⟩
      · exact Or.inr (Or.inr (Or.inl ⟨rfl, "Alice", rfl⟩)))
    (by decide)
    (List.Forall₂.cons ⟨rfl, rfl, rfl, rfl⟩
      (List.Forall₂.cons ⟨rfl, rfl, rfl, rfl⟩ List.Forall₂.nil))).1⟩

end Axevent
